import Mathlib

/-! # Ameli: `Tensor<T>` (src/base/include/tensor.hpp)

A shallow embedding of the `Tensor<T>` class template and a verification of
its specification.

Modelling conventions.

* `std::vector<size_t>` and `std::vector<T>` are lists.  A `size_t` (and an
  `unsigned long long`) is a natural number below `sizeModulus = 2 ^ 64`; every
  `size_t` addition and multiplication of the source is reduced modulo
  `sizeModulus`.  The number of elements of a buffer is a `size_t`, which the
  field `Tensor.data_fits` records.
* The element type `T` is a type parameter; the arithmetic it must support is
  taken from the type classes `Add`, `Sub`, `Mul`, `Div`, `Zero` (`T()` and
  `T(0)` are `0`).  No algebraic law is assumed of these operations.
* A member function that can throw returns `Except TensorError _`.  Four
  further `TensorError` values mark the places where the C++ has undefined
  behaviour (an unchecked `operator[]` outside a vector, `/` or `%` by zero),
  so that an execution that reaches one of them is never counted as a normal
  return.
* A member function that mutates the instance (`reshape`, assignment through
  `operator()`) returns the outcome together with the state of the instance
  after the call.
* A `for` loop is a function by recursion on the number of iterations still
  to run (downward loops) or already run (upward loops).  The counter `int i`
  of the two downward loops is taken to hold `shape_.size() - 1` exactly: ranks
  are below 2^31.
* Shapes and index vectors are lists of naturals.  The definitions compute on
  every such list as the source does on vectors of `size_t`; an entry of
  2^64 or more is not a `size_t`, and `Tensor.Reachable` admits only shapes
  without one.
* A `Tensor α` is any triple of the three private members whose buffer
  length is a `size_t`.  The values a program can hold are those built by the
  two constructors and the member functions (`Tensor.Reachable`); the
  default-constructed one (`Tensor.mkDefault`) is among them.
-/

namespace Ameli

/-- Computation device, `enum class Device`. -/
inductive Device
  | CPU
  | GPU
  deriving DecidableEq, Repr

/-- The failures of the member functions of `Tensor<T>`.  The first six are the
exceptions thrown by the source; the last four mark undefined behaviour. -/
inductive TensorError
  /-- Thrown by `getFlatIndex`: `std::invalid_argument("Invalid number of indices.")`. -/
  | invalidIndexArity
  /-- Thrown by `getFlatIndex`: `std::out_of_range("Index out of bounds.")`. -/
  | indexOutOfRange
  /-- Thrown by `validateShapeBroadcast`: `std::invalid_argument("Shapes cannot be broadcasted.")`. -/
  | shapeBroadcastIncompatible
  /-- Thrown by `operator/`: `std::invalid_argument("Division by zero.")`. -/
  | divisionByZero
  /-- Thrown by `reshape`: `std::invalid_argument("New shape must match the total size.")`. -/
  | reshapeSizeMismatch
  /-- Thrown by `dot`: `std::invalid_argument("Dot product requires 1D tensors of the same size.")`. -/
  | dotRankOrSizeMismatch
  /-- Undefined behaviour: `% source.shape_[i]` with `source.shape_[i] == 0`. -/
  | moduloByZero
  /-- Undefined behaviour: `shape_[i]` with `i >= shape_.size()`. -/
  | shapeReadOutOfBounds
  /-- Undefined behaviour: `data_[i]` with `i >= data_.size()`. -/
  | bufferAccessOutOfBounds
  /-- Undefined behaviour: `index / stride` with `stride == 0`. -/
  | strideDivisionByZero
  deriving DecidableEq, Repr

/-- The number of values of `size_t` and of `unsigned long long` (64 bits). -/
def sizeModulus : Nat := 2 ^ 64

/-- The private members of `Tensor<T>`: `shape_`, `data_`, `device_`.  The
number of elements of `data_` is what `data_.size()` returns, a `size_t`. -/
structure Tensor (α : Type) where
  shape_ : List Nat
  data_ : List α
  device_ : Device
  data_fits : data_.length < sizeModulus := by decide
  deriving DecidableEq, Repr

deriving instance DecidableEq for Except

section Definitions

variable {α : Type}

/-- The source's `calcSize`: `std::accumulate(shape.begin(), shape.end(), 1ULL,
std::multiplies<>())`.  The accumulator is an `unsigned long long`, so every
product wraps; the outer reduction is the conversion of the result to the
return type `size_t`. -/
def calcSize (shape : List Nat) : Nat :=
  (shape.foldl (fun acc d => acc * d % sizeModulus) 1) % sizeModulus

/-- The constructor `Tensor(shape, value, device)`:
`shape_(shape), data_(calcSize(shape), value), device_(device)`. -/
def Tensor.construct (shape : List Nat) (value : α) (device : Device) : Tensor α :=
  { shape_ := shape
    data_ := List.replicate (calcSize shape) value
    device_ := device
    data_fits := by
      rw [List.length_replicate]
      exact Nat.mod_lt _ (Nat.pos_pow_of_pos 64 (by decide)) }

/-- The constructor `Tensor() = default`: both vectors are empty.  The source
gives `device_` no initialiser, so its value is a parameter here. -/
def Tensor.mkDefault (device : Device) : Tensor α :=
  { shape_ := [], data_ := [], device_ := device
    data_fits := Nat.pos_pow_of_pos 64 (by decide) }

/-- The assignment `data_[i] = v` (callers make sure that `i` is in range). -/
def Tensor.setData (t : Tensor α) (i : Nat) (v : α) : Tensor α :=
  { t with
    data_ := t.data_.set i v
    data_fits := by rw [List.length_set]; exact t.data_fits }

/-- The getter `shape()`. -/
def Tensor.shape (t : Tensor α) : List Nat := t.shape_

/-- The getter `size()`: `data_.size()`. -/
def Tensor.size (t : Tensor α) : Nat := t.data_.length

/-- The getter `device()`. -/
def Tensor.device (t : Tensor α) : Device := t.device_

/-- The loop of `getFlatIndex`, `for (int i = shape_.size() - 1; i >= 0; --i)`.
The first numeric argument is `i + 1`, the number of iterations still to run;
the others are `flatIndex` and `stride`, both `size_t`: the product
`indices[i] * stride`, the sum `flatIndex += ...` and the product
`stride *= shape_[i]` wrap.  Both lookups are in range when the loop is
entered from `getFlatIndex` (the lengths agree and `i < shape_.size()`). -/
def getFlatIndexLoop (shape indices : List Nat) : Nat → Nat → Nat → Except TensorError Nat
  | 0, flatIndex, _ => .ok flatIndex
  | i + 1, flatIndex, stride =>
    if indices.getD i 0 ≥ shape.getD i 0 then
      .error .indexOutOfRange
    else
      getFlatIndexLoop shape indices i
        ((flatIndex + indices.getD i 0 * stride % sizeModulus) % sizeModulus)
        (stride * shape.getD i 0 % sizeModulus)

/-- The source's `getFlatIndex`. -/
def Tensor.getFlatIndex (t : Tensor α) (indices : List Nat) : Except TensorError Nat :=
  if indices.length ≠ t.shape_.length then
    .error .invalidIndexArity
  else
    getFlatIndexLoop t.shape_ indices t.shape_.length 0 1

/-- Reading through `operator()(indices)`: `getFlatIndex`, then the unchecked
`data_[index]`. -/
def Tensor.readAt (t : Tensor α) (indices : List Nat) : Except TensorError α :=
  match t.getFlatIndex indices with
  | .error e => .error e
  | .ok index =>
    match t.data_[index]? with
    | some v => .ok v
    | none => .error .bufferAccessOutOfBounds

/-- Writing through `operator()(indices) = w`: `getFlatIndex`, then assignment
to the unchecked `data_[index]`.  The second component is the instance after
the call (unchanged when the call fails). -/
def Tensor.writeAt (t : Tensor α) (indices : List Nat) (w : α) :
    Except TensorError Unit × Tensor α :=
  match t.getFlatIndex indices with
  | .error e => (.error e, t)
  | .ok index =>
    if index < t.data_.length then
      (.ok (), t.setData index w)
    else
      (.error .bufferAccessOutOfBounds, t)

/-- The expression `i < shape.size() ? shape[shape.size() - 1 - i] : 1` of
`validateShapeBroadcast` and `broadcastedShape`: the dimension `i` places from
the right, 1 where the shape has none. -/
def alignedDim (shape : List Nat) (i : Nat) : Nat :=
  if i < shape.length then shape.getD (shape.length - 1 - i) 0 else 1

/-- The loop of `validateShapeBroadcast`, `for (size_t i = 0; i < maxDims; ++i)`:
the first `k` iterations, then iteration `i = k`. -/
def validateShapeBroadcastLoop (shapeA shapeB : List Nat) : Nat → Except TensorError Unit
  | 0 => .ok ()
  | k + 1 =>
    match validateShapeBroadcastLoop shapeA shapeB k with
    | .error e => .error e
    | .ok () =>
      if alignedDim shapeA k ≠ alignedDim shapeB k ∧ alignedDim shapeA k ≠ 1
          ∧ alignedDim shapeB k ≠ 1 then
        .error .shapeBroadcastIncompatible
      else
        .ok ()

/-- The source's `validateShapeBroadcast`. -/
def Tensor.validateShapeBroadcast (self other : Tensor α) : Except TensorError Unit :=
  validateShapeBroadcastLoop self.shape_ other.shape_
    (max self.shape_.length other.shape_.length)

/-- The source's `broadcastedShape`: `max(dimA, dimB)` pushed for
`i = 0 .. maxDims - 1`, then `std::reverse`. -/
def Tensor.broadcastedShape (self other : Tensor α) : List Nat :=
  ((List.range (max self.shape_.length other.shape_.length)).map
    (fun i => max (alignedDim self.shape_ i) (alignedDim other.shape_ i))).reverse

/-- The first loop of `dataAtBroadcasted`,
`for (int i = source.shape_.size() - 1; i >= 0; --i)`: the first numeric
argument is `i + 1`; `indices` grows by `push_back`; `stride` is a `size_t`
and `stride *= source.shape_[i]` wraps.  In `(index / stride) %
source.shape_[i]` the division is evaluated first. -/
def decomposeLoop (index : Nat) (srcShape : List Nat) :
    Nat → List Nat → Nat → Except TensorError (List Nat)
  | 0, indices, _ => .ok indices
  | i + 1, indices, stride =>
    if stride = 0 then
      .error .strideDivisionByZero
    else if srcShape.getD i 0 = 0 then
      .error .moduloByZero
    else
      decomposeLoop index srcShape i
        (indices ++ [(index / stride) % srcShape.getD i 0])
        (stride * srcShape.getD i 0 % sizeModulus)

/-- The second loop of `dataAtBroadcasted`,
`for (size_t i = 0; i < indices.size(); ++i)`: the first `k` iterations, then
iteration `i = k`, which reads `shape_[k]` of the instance the function is
called on and `source.shape_[k]` (in range, `k < indices.size()`). -/
def remapLoop (selfShape srcShape : List Nat) : Nat → List Nat → Except TensorError (List Nat)
  | 0, indices => .ok indices
  | k + 1, indices =>
    match remapLoop selfShape srcShape k indices with
    | .error e => .error e
    | .ok indices =>
      match selfShape[k]? with
      | none => .error .shapeReadOutOfBounds
      | some d =>
        if d ≠ srcShape.getD k 0 ∧ srcShape.getD k 0 = 1 then
          .ok (indices.set k 0)
        else
          .ok indices

/-- The source's `dataAtBroadcasted(index, source)`, called on `self`. -/
def Tensor.dataAtBroadcasted (self : Tensor α) (index : Nat) (source : Tensor α) :
    Except TensorError α :=
  match decomposeLoop index source.shape_ source.shape_.length [] 1 with
  | .error e => .error e
  | .ok pushed =>
    match remapLoop self.shape_ source.shape_ pushed.reverse.length pushed.reverse with
    | .error e => .error e
    | .ok indices => source.readAt indices

/-- The loop of `operator+` and `operator-`,
`for (size_t i = 0; i < result.size(); ++i) result.data_[i] = ... op ...`:
the first `k` iterations, then iteration `i = k`.  The left operand of `op` is
looked up first. -/
def broadcastLoop (op : α → α → α) (self other : Tensor α) :
    Nat → Tensor α → Except TensorError (Tensor α)
  | 0, result => .ok result
  | k + 1, result =>
    match broadcastLoop op self other k result with
    | .error e => .error e
    | .ok result =>
      match self.dataAtBroadcasted k self with
      | .error e => .error e
      | .ok x =>
        match self.dataAtBroadcasted k other with
        | .error e => .error e
        | .ok y => .ok (result.setData k (op x y))

/-- The common body of `operator+` and `operator-`. -/
def Tensor.broadcastOp [Zero α] (op : α → α → α) (self other : Tensor α) :
    Except TensorError (Tensor α) :=
  match self.validateShapeBroadcast other with
  | .error e => .error e
  | .ok () =>
    broadcastLoop op self other
      (Tensor.construct (self.broadcastedShape other) (0 : α) self.device_).size
      (Tensor.construct (self.broadcastedShape other) (0 : α) self.device_)

/-- The source's `operator+`. -/
def Tensor.add [Zero α] [Add α] (self other : Tensor α) : Except TensorError (Tensor α) :=
  Tensor.broadcastOp (fun x y => x + y) self other

/-- The source's `operator-`. -/
def Tensor.sub [Zero α] [Sub α] (self other : Tensor α) : Except TensorError (Tensor α) :=
  Tensor.broadcastOp (fun x y => x - y) self other

/-- The loop of `operator*` and `operator/`,
`for (size_t i = 0; i < data_.size(); ++i) result.data_[i] = f(data_[i])`:
the first `k` iterations, then iteration `i = k`. -/
def scalarLoop (f : α → α) (src : List α) : Nat → Tensor α → Except TensorError (Tensor α)
  | 0, result => .ok result
  | k + 1, result =>
    match scalarLoop f src k result with
    | .error e => .error e
    | .ok result =>
      match src[k]? with
      | none => .error .bufferAccessOutOfBounds
      | some x =>
        if k < result.data_.length then .ok (result.setData k (f x))
        else .error .bufferAccessOutOfBounds

/-- The common body of `operator*` and `operator/` after the divisor check. -/
def Tensor.scalarOp [Zero α] (f : α → α) (self : Tensor α) : Except TensorError (Tensor α) :=
  scalarLoop f self.data_ self.data_.length
    (Tensor.construct self.shape_ (0 : α) self.device_)

/-- The source's `operator*(scalar)`. -/
def Tensor.mul [Zero α] [Mul α] (self : Tensor α) (scalar : α) : Except TensorError (Tensor α) :=
  Tensor.scalarOp (fun x => x * scalar) self

/-- The source's `operator/(scalar)`. -/
def Tensor.div [Zero α] [Div α] [DecidableEq α] (self : Tensor α) (scalar : α) :
    Except TensorError (Tensor α) :=
  if scalar = 0 then .error .divisionByZero
  else Tensor.scalarOp (fun x => x / scalar) self

/-- The loop of `dot`, `for (size_t i = 0; i < data_.size(); ++i)
result += data_[i] * other.data_[i]`: the first `k` iterations, then
iteration `i = k`. -/
def dotLoop [Add α] [Mul α] (a b : List α) : Nat → α → Except TensorError α
  | 0, result => .ok result
  | k + 1, result =>
    match dotLoop a b k result with
    | .error e => .error e
    | .ok result =>
      match a[k]?, b[k]? with
      | some x, some y => .ok (result + x * y)
      | _, _ => .error .bufferAccessOutOfBounds

/-- The source's `dot`. -/
def Tensor.dot [Zero α] [Add α] [Mul α] (self other : Tensor α) : Except TensorError α :=
  if self.shape_.length ≠ 1 ∨ other.shape_.length ≠ 1
      ∨ self.shape_.getD 0 0 ≠ other.shape_.getD 0 0 then
    .error .dotRankOrSizeMismatch
  else
    dotLoop self.data_ other.data_ self.data_.length 0

/-- The source's `reshape(newShape)`.  The second component is the instance
after the call. -/
def Tensor.reshape (t : Tensor α) (newShape : List Nat) : Except TensorError Unit × Tensor α :=
  if calcSize newShape ≠ t.data_.length then
    (.error .reshapeSizeMismatch, t)
  else
    (.ok (), { t with shape_ := newShape })

end Definitions

/-! ## Specification-side definitions

These follow the words of the specification, not the source; the theorems
below compare them with the embedded code. -/

section Specification

/-- The specification's validity of an index vector for a shape: its length is
the rank and every component is below the corresponding dimension. -/
def ValidIndices (s idx : List Nat) : Prop :=
  idx.length = s.length ∧ ∀ d, d < s.length → idx.getD d 0 < s.getD d 0

instance (s idx : List Nat) : Decidable (ValidIndices s idx) := by
  unfold ValidIndices; infer_instance

/-- The specification's row-major position: the sum over `d` of
`idx[d] * product of s[k] for k > d`. -/
def rowMajorFlat (s idx : List Nat) : Nat :=
  ((List.range s.length).map (fun d => idx.getD d 0 * (s.drop (d + 1)).prod)).sum

/-- Row-major position of the first `i` coordinates within the first `i`
dimensions, in Horner form (used to state the loop invariant of
`getFlatIndexLoop`). -/
def prefixFlat (shape indices : List Nat) : Nat → Nat
  | 0 => 0
  | i + 1 => indices.getD i 0 + shape.getD i 0 * prefixFlat shape indices i

/-- A shape right-aligned to rank `n`: padded on the left with 1s (the
specification's virtual padding of the shorter shape). -/
def padShape (n : Nat) (s : List Nat) : List Nat :=
  List.replicate (n - s.length) 1 ++ s

/-- The specification's broadcast compatibility: with both shapes right-aligned,
every aligned dimension pair is equal or has a 1. -/
def BroadcastCompatible (s1 s2 : List Nat) : Prop :=
  ∀ p, p < max s1.length s2.length →
    (padShape (max s1.length s2.length) s1).getD p 1
        = (padShape (max s1.length s2.length) s2).getD p 1
      ∨ (padShape (max s1.length s2.length) s1).getD p 1 = 1
      ∨ (padShape (max s1.length s2.length) s2).getD p 1 = 1

instance (s1 s2 : List Nat) : Decidable (BroadcastCompatible s1 s2) := by
  unfold BroadcastCompatible; infer_instance

/-- The specification's shape mismatch: some aligned dimension pair `(dA, dB)`
has `dA != dB`, `dA != 1` and `dB != 1`. -/
def BroadcastIncompatible (s1 s2 : List Nat) : Prop :=
  ∃ p, p < max s1.length s2.length ∧
    (padShape (max s1.length s2.length) s1).getD p 1
        ≠ (padShape (max s1.length s2.length) s2).getD p 1
      ∧ (padShape (max s1.length s2.length) s1).getD p 1 ≠ 1
      ∧ (padShape (max s1.length s2.length) s2).getD p 1 ≠ 1

instance (s1 s2 : List Nat) : Decidable (BroadcastIncompatible s1 s2) := by
  unfold BroadcastIncompatible; infer_instance

/-- The specification's result shape: the elementwise maximum of the two
right-aligned, padded shapes. -/
def broadcastShape (s1 s2 : List Nat) : List Nat :=
  List.zipWith max (padShape (max s1.length s2.length) s1)
    (padShape (max s1.length s2.length) s2)

/-- The coordinates of a linear index under a shape, row-major: coordinate `d`
is `(index / product of shape[k] for k > d) % shape[d]`. -/
def coordsOf (shape : List Nat) (index : Nat) : List Nat :=
  (List.range shape.length).map
    (fun d => (index / (shape.drop (d + 1)).prod) % shape.getD d 0)

/-- The coordinates at which the specification reads an operand for the
result coordinates `c`: `c` right-aligned to the operand's rank (the leading
coordinates the operand lacks are dropped), with 0 in place of every
coordinate whose dimension is 1 in the operand and greater than 1 in the
result. -/
def operandCoords (opShape resShape c : List Nat) : List Nat :=
  List.zipWith (fun (dims : Nat × Nat) ci => if dims.1 = 1 ∧ 1 < dims.2 then 0 else ci)
    (opShape.zip (resShape.drop (resShape.length - opShape.length)))
    (c.drop (c.length - opShape.length))

/-- A 2x3 tensor of zeros, left operand of the trailing-broadcast example. -/
def trailingLhs : Tensor Int :=
  { shape_ := [2, 3], data_ := [0, 0, 0, 0, 0, 0], device_ := .CPU }

/-- A 2x1 tensor holding 10 in row 0 and 20 in row 1. -/
def trailingRhs : Tensor Int :=
  { shape_ := [2, 1], data_ := [10, 20], device_ := .CPU }

/-- A 2x3 tensor holding 0..5 in storage order. -/
def iota23 : Tensor Int :=
  { shape_ := [2, 3], data_ := [0, 1, 2, 3, 4, 5], device_ := .CPU }

/-- The specification's dot product of two buffers: the products `a[i] * b[i]`
added in index order to an accumulator that starts at the zero value. -/
def dotSum {α : Type} [Zero α] [Add α] [Mul α] (a b : List α) : α :=
  (List.zipWith (fun x y => x * y) a b).foldl (fun acc p => acc + p) 0

/-- The values of `Tensor<T>` a program can hold: those produced by the two
public constructors and closed under the public member functions that yield
or modify an instance (`operator()` assignment, `reshape`, `operator+`,
`operator-`, `operator*`, `operator/`).  A shape passed to the constructor or
to `reshape` is a vector of `size_t`.  A copy is the same value, and a
moved-from instance has both vectors empty like a default-constructed one. -/
inductive Tensor.Reachable {α : Type} [Zero α] [Add α] [Sub α] [Mul α] [Div α]
    [DecidableEq α] : Tensor α → Prop
  | construct (s : List Nat) (v : α) (dev : Device) :
      (∀ d ∈ s, d < sizeModulus) → Reachable (Tensor.construct s v dev)
  | mkDefault (dev : Device) : Reachable (Tensor.mkDefault dev)
  | writeAt (t : Tensor α) (idx : List Nat) (w : α) :
      Reachable t → Reachable (t.writeAt idx w).2
  | reshape (t : Tensor α) (newShape : List Nat) :
      (∀ d ∈ newShape, d < sizeModulus) → Reachable t → Reachable (t.reshape newShape).2
  | add (a b r : Tensor α) : Reachable a → Reachable b → a.add b = .ok r → Reachable r
  | sub (a b r : Tensor α) : Reachable a → Reachable b → a.sub b = .ok r → Reachable r
  | mul (t : Tensor α) (k : α) (r : Tensor α) : Reachable t → t.mul k = .ok r → Reachable r
  | div (t : Tensor α) (k : α) (r : Tensor α) : Reachable t → t.div k = .ok r → Reachable r

end Specification

section Theorems

variable {α : Type}

/-! ## Shapes and sizes -/

theorem sizeModulus_pos : 0 < sizeModulus := Nat.pos_pow_of_pos 64 (by decide)

theorem foldl_mul_mod (l : List Nat) (init : Nat) :
    (l.foldl (fun acc d => acc * d % sizeModulus) init) % sizeModulus
      = (init * l.prod) % sizeModulus := by
  induction l generalizing init with
  | nil => simp
  | cons d ds ih =>
    rw [List.foldl_cons, ih, List.prod_cons, ← mul_assoc, Nat.mul_mod, Nat.mod_mod,
      ← Nat.mul_mod]

theorem calcSize_eq_mod (shape : List Nat) : calcSize shape = shape.prod % sizeModulus := by
  unfold calcSize
  rw [foldl_mul_mod, one_mul]

theorem calcSize_lt (shape : List Nat) : calcSize shape < sizeModulus := by
  rw [calcSize_eq_mod]
  exact Nat.mod_lt _ sizeModulus_pos

theorem calcSize_of_lt (shape : List Nat) (h : shape.prod < sizeModulus) :
    calcSize shape = shape.prod := by
  rw [calcSize_eq_mod, Nat.mod_eq_of_lt h]

/-! ## The flat index (`getFlatIndex`) -/

theorem getFlatIndexLoop_ok (shape indices : List Nat) (n : Nat) :
    ∀ flat stride, flat < sizeModulus →
      (∀ d, d < n → indices.getD d 0 < shape.getD d 0) →
      getFlatIndexLoop shape indices n flat stride
        = .ok ((flat + stride * prefixFlat shape indices n) % sizeModulus) := by
  induction n with
  | zero =>
    intro flat stride hf _
    simp [getFlatIndexLoop, prefixFlat, Nat.mod_eq_of_lt hf]
  | succ i ih =>
    intro flat stride _ h
    have hi := h i (Nat.lt_succ_self i)
    rw [getFlatIndexLoop, if_neg (by omega),
      ih _ _ (Nat.mod_lt _ sizeModulus_pos) (fun d hd => h d (by omega))]
    simp only [prefixFlat]
    congr 1
    have h1 : (flat + indices.getD i 0 * stride % sizeModulus) % sizeModulus
        ≡ flat + indices.getD i 0 * stride [MOD sizeModulus] :=
      (Nat.mod_modEq _ _).trans (Nat.ModEq.add_left _ (Nat.mod_modEq _ _))
    have h2 : (stride * shape.getD i 0 % sizeModulus) * prefixFlat shape indices i
        ≡ stride * shape.getD i 0 * prefixFlat shape indices i [MOD sizeModulus] :=
      (Nat.mod_modEq _ _).mul_right _
    have h3 := h1.add h2
    unfold Nat.ModEq at h3
    rw [h3]
    congr 1
    ring

theorem getFlatIndexLoop_error (shape indices : List Nat) (n : Nat) :
    ∀ flat stride e, getFlatIndexLoop shape indices n flat stride = .error e ↔
      (e = .indexOutOfRange ∧ ∃ d, d < n ∧ shape.getD d 0 ≤ indices.getD d 0) := by
  induction n with
  | zero => intro flat stride e; simp [getFlatIndexLoop]
  | succ i ih =>
    intro flat stride e
    rw [getFlatIndexLoop]
    by_cases hi : indices.getD i 0 ≥ shape.getD i 0
    · rw [if_pos hi]
      constructor
      · intro h
        injection h with h
        exact ⟨h.symm, i, Nat.lt_succ_self i, hi⟩
      · rintro ⟨rfl, _⟩; rfl
    · rw [if_neg hi, ih]
      constructor
      · rintro ⟨he, d, hd, hle⟩
        exact ⟨he, d, by omega, hle⟩
      · rintro ⟨he, d, hd, hle⟩
        refine ⟨he, d, ?_, hle⟩
        rcases Nat.lt_succ_iff_lt_or_eq.mp hd with h | h
        · exact h
        · subst h; exact absurd hle hi

theorem prefixFlat_eq_sum (s idx : List Nat) (n : Nat) (hn : n ≤ s.length) :
    prefixFlat s idx n
      = ((List.range n).map (fun d => idx.getD d 0 * ((s.take n).drop (d + 1)).prod)).sum := by
  induction n with
  | zero => simp [prefixFlat]
  | succ i ih =>
    have hi : i < s.length := by omega
    rw [prefixFlat, ih (by omega), List.range_succ, List.map_append, List.sum_append]
    simp only [List.map_cons, List.map_nil, List.sum_cons, List.sum_nil, add_zero]
    have hlast : ((s.take (i + 1)).drop (i + 1)) = [] := by
      apply List.drop_eq_nil_of_le
      simp
    rw [hlast, List.prod_nil, mul_one, add_comm, ← List.sum_map_mul_left]
    congr 1
    apply congrArg
    apply List.map_congr_left
    intro d hd
    have hd' : d < i := List.mem_range.mp hd
    have htk : s.take (i + 1) = s.take i ++ [s.getD i 0] := by
      rw [List.take_succ]
      simp [List.getD_eq_getElem?_getD, List.getElem?_eq_getElem hi]
    rw [htk, List.drop_append_of_le_length (by simp; omega), List.prod_append]
    simp
    ring

theorem prefixFlat_lt (s idx : List Nat) (n : Nat) (hn : n ≤ s.length)
    (h : ∀ d, d < n → idx.getD d 0 < s.getD d 0) :
    prefixFlat s idx n < (s.take n).prod := by
  induction n with
  | zero => simp [prefixFlat]
  | succ i ih =>
    have hi : i < s.length := by omega
    have h1 := ih (by omega) (fun d hd => h d (by omega))
    have h2 := h i (Nat.lt_succ_self i)
    have htk : s.take (i + 1) = s.take i ++ [s.getD i 0] := by
      rw [List.take_succ]
      simp [List.getD_eq_getElem?_getD, List.getElem?_eq_getElem hi]
    rw [htk, List.prod_append, prefixFlat]
    simp only [List.prod_cons, List.prod_nil, mul_one]
    calc idx.getD i 0 + s.getD i 0 * prefixFlat s idx i
        < s.getD i 0 + s.getD i 0 * prefixFlat s idx i := by omega
      _ = s.getD i 0 * (prefixFlat s idx i + 1) := by ring
      _ ≤ s.getD i 0 * (s.take i).prod := Nat.mul_le_mul_left _ h1
      _ = (s.take i).prod * s.getD i 0 := by ring

theorem prefixFlat_length_eq_rowMajorFlat (s idx : List Nat) :
    prefixFlat s idx s.length = rowMajorFlat s idx := by
  rw [prefixFlat_eq_sum s idx s.length le_rfl, List.take_length]
  rfl


theorem rowMajorFlat_lt (s idx : List Nat) (h : ValidIndices s idx) :
    rowMajorFlat s idx < s.prod := by
  rw [← prefixFlat_length_eq_rowMajorFlat]
  have := prefixFlat_lt s idx s.length le_rfl h.2
  rwa [List.take_length] at this

theorem getFlatIndex_of_valid (t : Tensor α) (idx : List Nat)
    (h : ValidIndices t.shape_ idx) :
    t.getFlatIndex idx = .ok (rowMajorFlat t.shape_ idx % sizeModulus) := by
  unfold Tensor.getFlatIndex
  rw [if_neg (by simpa using h.1), getFlatIndexLoop_ok _ _ _ _ _ sizeModulus_pos h.2,
    prefixFlat_length_eq_rowMajorFlat]
  simp

theorem getFlatIndex_of_valid_of_le (t : Tensor α) (idx : List Nat)
    (h : ValidIndices t.shape_ idx) (hfit : t.shape_.prod ≤ sizeModulus) :
    t.getFlatIndex idx = .ok (rowMajorFlat t.shape_ idx) := by
  rw [getFlatIndex_of_valid t idx h, Nat.mod_eq_of_lt]
  exact lt_of_lt_of_le (rowMajorFlat_lt _ _ h) hfit

theorem getFlatIndex_error_arity (t : Tensor α) (idx : List Nat) :
    t.getFlatIndex idx = .error .invalidIndexArity ↔ idx.length ≠ t.shape_.length := by
  unfold Tensor.getFlatIndex
  by_cases h : idx.length = t.shape_.length
  · simp [h, getFlatIndexLoop_error]
  · simp [h]

theorem getFlatIndex_error_range (t : Tensor α) (idx : List Nat)
    (hlen : idx.length = t.shape_.length) :
    t.getFlatIndex idx = .error .indexOutOfRange ↔
      ∃ d, d < t.shape_.length ∧ t.shape_.getD d 0 ≤ idx.getD d 0 := by
  unfold Tensor.getFlatIndex
  simp [hlen, getFlatIndexLoop_error]

theorem getFlatIndex_ok_iff (t : Tensor α) (idx : List Nat) :
    (∃ f, t.getFlatIndex idx = .ok f) ↔ ValidIndices t.shape_ idx := by
  constructor
  · rintro ⟨f, hf⟩
    refine ⟨?_, ?_⟩
    · by_contra hne
      rw [(getFlatIndex_error_arity t idx).mpr hne] at hf
      cases hf
    · intro d hd
      by_contra hge
      have hlen : idx.length = t.shape_.length := by
        by_contra hne
        rw [(getFlatIndex_error_arity t idx).mpr hne] at hf
        cases hf
      rw [(getFlatIndex_error_range t idx hlen).mpr ⟨d, hd, by omega⟩] at hf
      cases hf
  · intro h
    exact ⟨_, getFlatIndex_of_valid t idx h⟩

/-! ## Element access (`operator()`) -/

theorem shape_prod_lt_of_size_eq (t : Tensor α) (hwf : t.data_.length = t.shape_.prod) :
    t.shape_.prod < sizeModulus := by
  rw [← hwf]; exact t.data_fits

theorem readAt_of_valid (t : Tensor α) (idx : List Nat) (h : ValidIndices t.shape_ idx)
    (hwf : t.data_.length = t.shape_.prod) :
    ∃ v, t.data_[rowMajorFlat t.shape_ idx]? = some v ∧ t.readAt idx = .ok v := by
  have hlt : rowMajorFlat t.shape_ idx < t.data_.length := by
    rw [hwf]; exact rowMajorFlat_lt _ _ h
  refine ⟨t.data_[rowMajorFlat t.shape_ idx], List.getElem?_eq_getElem hlt, ?_⟩
  unfold Tensor.readAt
  rw [getFlatIndex_of_valid_of_le t idx h (le_of_lt (shape_prod_lt_of_size_eq t hwf))]
  simp [List.getElem?_eq_getElem hlt]

theorem readAt_error_arity (t : Tensor α) (idx : List Nat) :
    t.readAt idx = .error .invalidIndexArity ↔ idx.length ≠ t.shape_.length := by
  rw [← getFlatIndex_error_arity]
  unfold Tensor.readAt
  cases hf : t.getFlatIndex idx with
  | error e => simp
  | ok f =>
    cases hd : t.data_[f]? <;> simp [hd]

theorem readAt_error_range (t : Tensor α) (idx : List Nat)
    (hlen : idx.length = t.shape_.length) :
    t.readAt idx = .error .indexOutOfRange ↔
      ∃ d, d < t.shape_.length ∧ t.shape_.getD d 0 ≤ idx.getD d 0 := by
  rw [← getFlatIndex_error_range t idx hlen]
  unfold Tensor.readAt
  cases hf : t.getFlatIndex idx with
  | error e => simp
  | ok f =>
    cases hd : t.data_[f]? <;> simp [hd]


theorem writeAt_of_valid (t : Tensor α) (idx : List Nat) (w : α)
    (h : ValidIndices t.shape_ idx) (hwf : t.data_.length = t.shape_.prod) :
    t.writeAt idx w = (.ok (), t.setData (rowMajorFlat t.shape_ idx) w) := by
  have hlt : rowMajorFlat t.shape_ idx < t.data_.length := by
    rw [hwf]; exact rowMajorFlat_lt _ _ h
  unfold Tensor.writeAt
  rw [getFlatIndex_of_valid_of_le t idx h (le_of_lt (shape_prod_lt_of_size_eq t hwf))]
  simp [hlt]

theorem writeAt_shape (t : Tensor α) (idx : List Nat) (w : α) :
    (t.writeAt idx w).2.shape_ = t.shape_ ∧ (t.writeAt idx w).2.device_ = t.device_
      ∧ (t.writeAt idx w).2.data_.length = t.data_.length := by
  unfold Tensor.writeAt
  cases hf : t.getFlatIndex idx with
  | error e => simp
  | ok f =>
    by_cases hlt : f < t.data_.length <;> simp [hlt, Tensor.setData]

theorem read_construct (s : List Nat) (v : α) (dev : Device) (idx : List Nat)
    (h : ValidIndices s idx) (hfit : s.prod < sizeModulus) :
    (Tensor.construct s v dev).readAt idx = .ok v := by
  obtain ⟨x, hx, hr⟩ := readAt_of_valid (Tensor.construct s v dev) idx h
    (by simp [Tensor.construct, calcSize_of_lt s hfit])
  rw [hr]
  simp only [Tensor.construct] at hx
  rw [List.getElem?_replicate] at hx
  split at hx
  · injection hx with hx; rw [hx]
  · cases hx

theorem read_after_write (t : Tensor α) (idx : List Nat) (w : α)
    (h : ValidIndices t.shape_ idx) (hwf : t.data_.length = t.shape_.prod) :
    (t.writeAt idx w).1 = .ok () ∧ (t.writeAt idx w).2.readAt idx = .ok w := by
  rw [writeAt_of_valid t idx w h hwf]
  refine ⟨rfl, ?_⟩
  have hlt : rowMajorFlat t.shape_ idx < t.data_.length := by
    rw [hwf]; exact rowMajorFlat_lt _ _ h
  unfold Tensor.readAt
  dsimp only
  rw [getFlatIndex_of_valid_of_le _ idx (by simpa [Tensor.setData] using h)
    (by simpa [Tensor.setData] using le_of_lt (shape_prod_lt_of_size_eq t hwf))]
  simp [hlt, Tensor.setData]

/-! ## Broadcast shapes (`validateShapeBroadcast`, `broadcastedShape`) -/

theorem padShape_length (n : Nat) (s : List Nat) (h : s.length ≤ n) :
    (padShape n s).length = n := by
  simp [padShape]; omega

theorem alignedDim_eq_padShape (n : Nat) (s : List Nat) (h : s.length ≤ n) (i : Nat)
    (hi : i < n) : alignedDim s i = (padShape n s).getD (n - 1 - i) 1 := by
  unfold alignedDim padShape
  rw [List.getD_eq_getElem?_getD, List.getD_eq_getElem?_getD]
  by_cases hlt : i < s.length
  · have hidx : n - 1 - i - (n - s.length) = s.length - 1 - i := by omega
    rw [if_pos hlt, List.getElem?_append_right (by simp; omega)]
    simp only [List.length_replicate]
    rw [hidx, List.getElem?_eq_getElem (by omega)]
    rfl
  · rw [if_neg hlt, List.getElem?_append_left (by simp; omega),
      List.getElem?_replicate, if_pos (by omega)]
    rfl

theorem padShape_getD (n : Nat) (s : List Nat) (h : s.length ≤ n) (p : Nat) (hp : p < n) :
    (padShape n s).getD p 1 = alignedDim s (n - 1 - p) := by
  rw [alignedDim_eq_padShape n s h (n - 1 - p) (by omega)]
  congr 1
  omega

theorem validateShapeBroadcastLoop_error (sa sb : List Nat) (n : Nat) (e : TensorError) :
    validateShapeBroadcastLoop sa sb n = .error e ↔
      (e = .shapeBroadcastIncompatible ∧ ∃ i, i < n ∧ alignedDim sa i ≠ alignedDim sb i
        ∧ alignedDim sa i ≠ 1 ∧ alignedDim sb i ≠ 1) := by
  induction n generalizing e with
  | zero => simp [validateShapeBroadcastLoop]
  | succ k ih =>
    rw [validateShapeBroadcastLoop]
    cases hk : validateShapeBroadcastLoop sa sb k with
    | error e' =>
      obtain ⟨he', i, hi, hbad⟩ := (ih e').mp hk
      simp only []
      constructor
      · intro h
        injection h with h
        subst h
        exact ⟨he', i, by omega, hbad⟩
      · rintro ⟨he, _⟩
        rw [he, he']
    | ok u =>
      have ih := ih e
      rw [hk] at ih
      cases u
      simp only []
      by_cases hbad : alignedDim sa k ≠ alignedDim sb k ∧ alignedDim sa k ≠ 1
          ∧ alignedDim sb k ≠ 1
      · rw [if_pos hbad]
        constructor
        · intro h
          injection h with h
          exact ⟨h.symm, k, Nat.lt_succ_self k, hbad⟩
        · rintro ⟨rfl, _⟩; rfl
      · rw [if_neg hbad]
        constructor
        · intro h; cases h
        · rintro ⟨he, i, hi, hb⟩
          rcases Nat.lt_succ_iff_lt_or_eq.mp hi with h | h
          · exact absurd (ih.mpr ⟨he, i, h, hb⟩) (by simp)
          · subst h; exact absurd hb hbad

theorem broadcastIncompatible_iff_alignedDim (sa sb : List Nat) :
    BroadcastIncompatible sa sb ↔
      ∃ i, i < max sa.length sb.length ∧ alignedDim sa i ≠ alignedDim sb i
        ∧ alignedDim sa i ≠ 1 ∧ alignedDim sb i ≠ 1 := by
  have ha : sa.length ≤ max sa.length sb.length := le_max_left _ _
  have hb : sb.length ≤ max sa.length sb.length := le_max_right _ _
  constructor
  · rintro ⟨p, hp, h⟩
    rw [padShape_getD _ sa ha p hp, padShape_getD _ sb hb p hp] at h
    exact ⟨max sa.length sb.length - 1 - p, by omega, h⟩
  · rintro ⟨i, hi, h⟩
    rw [alignedDim_eq_padShape _ sa ha i hi, alignedDim_eq_padShape _ sb hb i hi] at h
    exact ⟨max sa.length sb.length - 1 - i, by omega, h⟩

theorem broadcastCompatible_iff_not_incompatible (sa sb : List Nat) :
    BroadcastCompatible sa sb ↔ ¬ BroadcastIncompatible sa sb := by
  unfold BroadcastCompatible BroadcastIncompatible
  constructor
  · rintro h ⟨p, hp, h1, h2, h3⟩
    rcases h p hp with h | h | h
    · exact h1 h
    · exact h2 h
    · exact h3 h
  · intro h p hp
    by_contra hc
    push_neg at hc
    exact h ⟨p, hp, hc.1, hc.2.1, hc.2.2⟩

theorem validateShapeBroadcast_error_iff (a b : Tensor α) (e : TensorError) :
    a.validateShapeBroadcast b = .error e ↔
      (e = .shapeBroadcastIncompatible ∧ BroadcastIncompatible a.shape_ b.shape_) := by
  unfold Tensor.validateShapeBroadcast
  rw [validateShapeBroadcastLoop_error, broadcastIncompatible_iff_alignedDim]

theorem validateShapeBroadcast_ok_iff (a b : Tensor α) :
    a.validateShapeBroadcast b = .ok () ↔ BroadcastCompatible a.shape_ b.shape_ := by
  rw [broadcastCompatible_iff_not_incompatible]
  constructor
  · intro h hinc
    have := (validateShapeBroadcast_error_iff a b _).mpr ⟨rfl, hinc⟩
    rw [h] at this
    cases this
  · intro h
    cases hv : a.validateShapeBroadcast b with
    | error e => exact absurd ((validateShapeBroadcast_error_iff a b e).mp hv).2 h
    | ok u => rfl

theorem broadcastedShape_length (a b : Tensor α) :
    (a.broadcastedShape b).length = max a.shape_.length b.shape_.length := by
  simp [Tensor.broadcastedShape]

theorem padShape_getElem? (n : Nat) (s : List Nat) (h : s.length ≤ n) (p : Nat)
    (hp : p < n) : (padShape n s)[p]? = some (alignedDim s (n - 1 - p)) := by
  have hlen : p < (padShape n s).length := by rw [padShape_length n s h]; exact hp
  rw [← padShape_getD n s h p hp, List.getD_eq_getElem?_getD,
    List.getElem?_eq_getElem hlen]
  rfl

theorem broadcastedShape_eq_broadcastShape (a b : Tensor α) :
    a.broadcastedShape b = broadcastShape a.shape_ b.shape_ := by
  have ha : a.shape_.length ≤ max a.shape_.length b.shape_.length := le_max_left _ _
  have hb : b.shape_.length ≤ max a.shape_.length b.shape_.length := le_max_right _ _
  apply List.ext_getElem?
  intro p
  unfold Tensor.broadcastedShape broadcastShape
  by_cases hp : p < max a.shape_.length b.shape_.length
  · rw [List.getElem?_reverse (by simpa using hp), List.getElem?_map, List.getElem?_range
      (by simp; omega), List.getElem?_zipWith, padShape_getElem? _ _ ha p hp,
      padShape_getElem? _ _ hb p hp]
    simp
  · rw [List.getElem?_eq_none (by simp; omega), List.getElem?_eq_none]
    rw [List.length_zipWith, padShape_length _ _ ha, padShape_length _ _ hb]
    omega

/-! ## The broadcast lookup (`dataAtBroadcasted`) and the elementwise loop -/

theorem decomposeLoop_error (index : Nat) (shape : List Nat) (n : Nat) :
    ∀ acc stride e, decomposeLoop index shape n acc stride = .error e →
      e = .strideDivisionByZero ∨ e = .moduloByZero := by
  induction n with
  | zero => intro acc stride e h; simp [decomposeLoop] at h
  | succ i ih =>
    intro acc stride e h
    rw [decomposeLoop] at h
    split at h
    · injection h with h; exact Or.inl h.symm
    · split at h
      · injection h with h; exact Or.inr h.symm
      · exact ih _ _ _ h

theorem remapLoop_error (selfShape srcShape : List Nat) (n : Nat) (indices : List Nat)
    (e : TensorError) (h : remapLoop selfShape srcShape n indices = .error e) :
    e = .shapeReadOutOfBounds := by
  induction n generalizing e with
  | zero => simp [remapLoop] at h
  | succ k ih =>
    rw [remapLoop] at h
    split at h
    · rename_i e' hk
      injection h with h
      subst h
      exact ih _ hk
    · split at h
      · injection h with h; exact h.symm
      · split at h <;> cases h

theorem readAt_error (t : Tensor α) (idx : List Nat) (e : TensorError)
    (h : t.readAt idx = .error e) :
    e = .invalidIndexArity ∨ e = .indexOutOfRange ∨ e = .bufferAccessOutOfBounds := by
  unfold Tensor.readAt at h
  split at h
  · rename_i e' hf
    injection h with h
    subst h
    unfold Tensor.getFlatIndex at hf
    split at hf
    · injection hf with hf; exact Or.inl hf.symm
    · exact Or.inr (Or.inl ((getFlatIndexLoop_error _ _ _ _ _ _).mp hf).1)
  · split at h
    · cases h
    · injection h with h; exact Or.inr (Or.inr h.symm)


theorem dataAtBroadcasted_error (self src : Tensor α) (i : Nat) (e : TensorError)
    (h : self.dataAtBroadcasted i src = .error e) :
    e = .strideDivisionByZero ∨ e = .moduloByZero ∨ e = .shapeReadOutOfBounds
      ∨ e = .invalidIndexArity ∨ e = .indexOutOfRange ∨ e = .bufferAccessOutOfBounds := by
  unfold Tensor.dataAtBroadcasted at h
  split at h
  · rename_i e' hd
    injection h with h
    subst h
    rcases decomposeLoop_error _ _ _ _ _ _ hd with h | h
    · exact Or.inl h
    · exact Or.inr (Or.inl h)
  · split at h
    · rename_i e' hr
      injection h with h
      subst h
      exact Or.inr (Or.inr (Or.inl (remapLoop_error _ _ _ _ _ hr)))
    · rcases readAt_error _ _ _ h with h | h | h
      · exact Or.inr (Or.inr (Or.inr (Or.inl h)))
      · exact Or.inr (Or.inr (Or.inr (Or.inr (Or.inl h))))
      · exact Or.inr (Or.inr (Or.inr (Or.inr (Or.inr h))))

theorem broadcastLoop_error (op : α → α → α) (self other : Tensor α) (n : Nat)
    (result : Tensor α) (e : TensorError)
    (h : broadcastLoop op self other n result = .error e) :
    e ≠ .shapeBroadcastIncompatible := by
  induction n generalizing e with
  | zero => simp [broadcastLoop] at h
  | succ k ih =>
    rw [broadcastLoop] at h
    split at h
    · rename_i e' hk
      injection h with h
      subst h
      exact ih _ hk
    · split at h
      · rename_i e' hx
        injection h with h
        subst h
        rcases dataAtBroadcasted_error _ _ _ _ hx with h | h | h | h | h | h <;>
          rw [h] <;> decide
      · split at h
        · rename_i e' hy
          injection h with h
          subst h
          rcases dataAtBroadcasted_error _ _ _ _ hy with h | h | h | h | h | h <;>
            rw [h] <;> decide
        · cases h

theorem broadcastLoop_frame (op : α → α → α) (self other : Tensor α) (n : Nat)
    (result r : Tensor α) (h : broadcastLoop op self other n result = .ok r) :
    r.shape_ = result.shape_ ∧ r.device_ = result.device_
      ∧ r.data_.length = result.data_.length := by
  induction n generalizing r with
  | zero =>
    simp only [broadcastLoop] at h
    injection h with h
    subst h
    exact ⟨rfl, rfl, rfl⟩
  | succ k ih =>
    rw [broadcastLoop] at h
    split at h
    · cases h
    · rename_i d hk
      split at h
      · cases h
      · split at h
        · cases h
        · injection h with h
          obtain ⟨h1, h2, h3⟩ := ih _ hk
          subst h
          exact ⟨h1, h2, by simp [Tensor.setData, h3]⟩

theorem broadcastOp_error_iff [Zero α] (op : α → α → α) (a b : Tensor α) :
    Tensor.broadcastOp op a b = .error .shapeBroadcastIncompatible ↔
      BroadcastIncompatible a.shape_ b.shape_ := by
  unfold Tensor.broadcastOp
  cases hv : a.validateShapeBroadcast b with
  | error e =>
    obtain ⟨he, hinc⟩ := (validateShapeBroadcast_error_iff a b e).mp hv
    simp [he, hinc]
  | ok u =>
    have hc := (validateShapeBroadcast_ok_iff a b).mp hv
    rw [broadcastCompatible_iff_not_incompatible] at hc
    simp only [hc, iff_false]
    intro h
    exact broadcastLoop_error _ _ _ _ _ _ h rfl

theorem broadcastOp_ok [Zero α] (op : α → α → α) (a b r : Tensor α)
    (h : Tensor.broadcastOp op a b = .ok r) :
    BroadcastCompatible a.shape_ b.shape_ ∧ r.shape_ = a.broadcastedShape b
      ∧ r.data_.length = calcSize (a.broadcastedShape b) ∧ r.device_ = a.device_ := by
  unfold Tensor.broadcastOp at h
  cases hv : a.validateShapeBroadcast b with
  | error e => rw [hv] at h; cases h
  | ok u =>
    rw [hv] at h
    simp only [] at h
    obtain ⟨h1, h2, h3⟩ := broadcastLoop_frame _ _ _ _ _ _ h
    refine ⟨(validateShapeBroadcast_ok_iff a b).mp hv, h1, ?_, h2⟩
    simpa [Tensor.construct] using h3

theorem drop_prod_succ (shape : List Nat) (i : Nat) (hi : i < shape.length) :
    (shape.drop (i + 1)).prod * shape.getD i 0 = (shape.drop i).prod := by
  rw [List.drop_eq_getElem_cons hi, List.prod_cons, List.getD_eq_getElem?_getD,
    List.getElem?_eq_getElem hi]
  simp [mul_comm]


theorem prod_drop_pos (shape : List Nat) (hpos : ∀ d ∈ shape, 1 ≤ d) (n : Nat) :
    0 < (shape.drop n).prod :=
  List.prod_pos (fun d hd => hpos d (List.mem_of_mem_drop hd))

theorem prod_drop_le (shape : List Nat) (hpos : ∀ d ∈ shape, 1 ≤ d) (n : Nat) :
    (shape.drop n).prod ≤ shape.prod := by
  have h : shape.prod = (shape.take n).prod * (shape.drop n).prod := by
    rw [← List.prod_append, List.take_append_drop]
  rw [h]
  exact Nat.le_mul_of_pos_left _
    (List.prod_pos (fun d hd => hpos d (List.mem_of_mem_take hd)))

theorem decomposeLoop_ok (index : Nat) (shape : List Nat) (hpos : ∀ d ∈ shape, 1 ≤ d)
    (hfit : shape.prod < sizeModulus)
    (n : Nat) (hn : n ≤ shape.length) (acc : List Nat) :
    decomposeLoop index shape n acc (shape.drop n).prod
      = .ok (acc ++ ((coordsOf shape index).take n).reverse) := by
  induction n generalizing acc with
  | zero => simp [decomposeLoop]
  | succ i ih =>
    have hi : i < shape.length := by omega
    have hmem : shape.getD i 0 ∈ shape := by
      rw [List.getD_eq_getElem?_getD, List.getElem?_eq_getElem hi]
      exact List.getElem_mem hi
    have hne : shape.getD i 0 ≠ 0 := by
      have := hpos _ hmem
      omega
    have hs : (shape.drop (i + 1)).prod ≠ 0 := by
      have := prod_drop_pos shape hpos (i + 1)
      omega
    have hnext : (shape.drop (i + 1)).prod * shape.getD i 0 % sizeModulus
        = (shape.drop i).prod := by
      rw [drop_prod_succ shape i hi]
      exact Nat.mod_eq_of_lt (lt_of_le_of_lt (prod_drop_le shape hpos i) hfit)
    rw [decomposeLoop, if_neg hs, if_neg hne, hnext, ih (by omega)]
    congr 1
    have hc : i < (coordsOf shape index).length := by simp [coordsOf]; exact hi
    rw [List.take_succ, List.getElem?_eq_getElem hc]
    simp [coordsOf]

theorem coordsOf_length (shape : List Nat) (index : Nat) :
    (coordsOf shape index).length = shape.length := by
  simp [coordsOf]

theorem coordsOf_getD (shape : List Nat) (index : Nat) (d : Nat) (hd : d < shape.length) :
    (coordsOf shape index).getD d 0
      = (index / (shape.drop (d + 1)).prod) % shape.getD d 0 := by
  have hc : d < (coordsOf shape index).length := by rw [coordsOf_length]; exact hd
  rw [List.getD_eq_getElem?_getD, List.getElem?_eq_getElem hc]
  simp [coordsOf]

theorem coordsOf_valid (shape : List Nat) (hpos : ∀ d ∈ shape, 1 ≤ d) (index : Nat) :
    ValidIndices shape (coordsOf shape index) := by
  refine ⟨coordsOf_length _ _, ?_⟩
  intro d hd
  rw [coordsOf_getD shape index d hd]
  apply Nat.mod_lt
  have hmem : shape.getD d 0 ∈ shape := by
    rw [List.getD_eq_getElem?_getD, List.getElem?_eq_getElem hd]
    exact List.getElem_mem hd
  exact hpos _ hmem

theorem prefixFlat_coordsOf (shape : List Nat) (index : Nat) (n : Nat)
    (hn : n ≤ shape.length) :
    prefixFlat shape (coordsOf shape index) n
      = (index / (shape.drop n).prod) % (shape.take n).prod := by
  induction n with
  | zero => simp [prefixFlat, Nat.mod_one]
  | succ i ih =>
    have hi : i < shape.length := by omega
    have htk : shape.take (i + 1) = shape.take i ++ [shape.getD i 0] := by
      rw [List.take_succ]
      simp [List.getD_eq_getElem?_getD, List.getElem?_eq_getElem hi]
    rw [prefixFlat, ih (by omega), coordsOf_getD shape index i hi, htk, List.prod_append,
      ← drop_prod_succ shape i hi, ← Nat.div_div_eq_div_mul]
    simp only [List.prod_cons, List.prod_nil, mul_one]
    rw [mul_comm (shape.take i).prod, Nat.mod_mul]

theorem rowMajorFlat_coordsOf (shape : List Nat) (index : Nat) :
    rowMajorFlat shape (coordsOf shape index) = index % shape.prod := by
  rw [← prefixFlat_length_eq_rowMajorFlat, prefixFlat_coordsOf shape index _ le_rfl]
  simp

theorem remapLoop_ok (selfShape srcShape indices : List Nat) (n : Nat)
    (hn : n ≤ selfShape.length)
    (hz : ∀ k, k < n → srcShape.getD k 0 = 1 → indices.set k 0 = indices) :
    remapLoop selfShape srcShape n indices = .ok indices := by
  induction n with
  | zero => simp [remapLoop]
  | succ k ih =>
    have hk : k < selfShape.length := by omega
    rw [remapLoop, ih (by omega) (fun j hj => hz j (by omega)), List.getElem?_eq_getElem hk]
    simp only []
    split
    · rename_i h
      rw [hz k (Nat.lt_succ_self k) h.2]
    · rfl

theorem set_getElem_same {β : Type} (l : List β) (k : Nat) (hk : k < l.length) :
    l.set k (l.get ⟨k, hk⟩) = l := by
  apply List.ext_getElem?
  intro j
  rw [List.getElem?_set]
  split
  · rename_i h
    subst h
    simp [hk]
  · rfl

theorem coordsOf_set_zero (shape : List Nat) (index : Nat) (k : Nat)
    (hk : k < shape.length) (h1 : shape.getD k 0 = 1) :
    (coordsOf shape index).set k 0 = coordsOf shape index := by
  have hc : k < (coordsOf shape index).length := by rw [coordsOf_length]; exact hk
  have h0 : (coordsOf shape index)[k] = 0 := by
    have := coordsOf_getD shape index k hk
    rw [List.getD_eq_getElem?_getD, List.getElem?_eq_getElem hc, h1, Nat.mod_one] at this
    exact this
  have := set_getElem_same (coordsOf shape index) k hc
  rw [List.get_eq_getElem, h0] at this
  exact this


theorem dataAtBroadcasted_eq (self src : Tensor α) (i : Nat)
    (hpos : ∀ d ∈ src.shape_, 1 ≤ d) (hwf : src.data_.length = src.shape_.prod)
    (hrank : src.shape_.length ≤ self.shape_.length) :
    ∃ v, src.data_[i % src.data_.length]? = some v ∧ self.dataAtBroadcasted i src = .ok v := by
  have hfit := shape_prod_lt_of_size_eq src hwf
  have hdec := decomposeLoop_ok i src.shape_ hpos hfit src.shape_.length le_rfl []
  rw [List.drop_length, List.prod_nil, List.nil_append,
    List.take_of_length_le (by rw [coordsOf_length])] at hdec
  have hremap := remapLoop_ok self.shape_ src.shape_ (coordsOf src.shape_ i)
    (coordsOf src.shape_ i).length (by rw [coordsOf_length]; exact hrank)
    (fun k hk h1 => coordsOf_set_zero src.shape_ i k (by rwa [coordsOf_length] at hk) h1)
  obtain ⟨v, hv, hread⟩ := readAt_of_valid src (coordsOf src.shape_ i)
    (coordsOf_valid src.shape_ hpos i) hwf
  rw [rowMajorFlat_coordsOf, ← hwf] at hv
  refine ⟨v, hv, ?_⟩
  unfold Tensor.dataAtBroadcasted
  rw [hdec]
  simp only [List.reverse_reverse]
  rw [hremap]
  exact hread

theorem Tensor.eq_of_fields (a b : Tensor α) (hs : a.shape_ = b.shape_)
    (hd : a.data_ = b.data_) (hv : a.device_ = b.device_) : a = b := by
  cases a
  cases b
  simp only [] at hs hd hv
  subst hs hd hv
  rfl

theorem set_map_range_append (f : Nat → α) (k : Nat) (data : List α) (hk : k < data.length) :
    ((List.range k).map f ++ data.drop k).set k (f k)
      = (List.range (k + 1)).map f ++ data.drop (k + 1) := by
  apply List.ext_getElem?
  intro j
  rw [List.getElem?_set]
  by_cases hjk : k = j
  · subst hjk
    rw [if_pos rfl, if_pos (by simp; omega), List.getElem?_append_left (by simp)]
    simp [List.getElem?_range]
  · rw [if_neg hjk]
    by_cases hlt : j < k
    · rw [List.getElem?_append_left (by simpa using hlt),
        List.getElem?_append_left (by simp; omega)]
      simp [List.getElem?_range, hlt, Nat.lt_succ_of_lt hlt]
    · rw [List.getElem?_append_right (by simp; omega),
        List.getElem?_append_right (by simp; omega)]
      simp only [List.length_map, List.length_range, List.getElem?_drop]
      congr 1
      omega

theorem broadcastLoop_ok (op : α → α → α) (self other : Tensor α) (fx fy : Nat → α)
    (n : Nat) (result : Tensor α) (hn : n ≤ result.data_.length)
    (hx : ∀ k, k < n → self.dataAtBroadcasted k self = .ok (fx k))
    (hy : ∀ k, k < n → self.dataAtBroadcasted k other = .ok (fy k)) :
    ∃ r, broadcastLoop op self other n result = .ok r ∧ r.shape_ = result.shape_
      ∧ r.device_ = result.device_
      ∧ r.data_ = (List.range n).map (fun k => op (fx k) (fy k)) ++ result.data_.drop n := by
  induction n with
  | zero => exact ⟨result, rfl, rfl, rfl, by simp⟩
  | succ k ih =>
    obtain ⟨r, hr, hs, hd, hdata⟩ := ih (by omega) (fun j hj => hx j (by omega))
      (fun j hj => hy j (by omega))
    refine ⟨r.setData k (op (fx k) (fy k)), ?_, hs, hd, ?_⟩
    · rw [broadcastLoop, hr, hx k (Nat.lt_succ_self k), hy k (Nat.lt_succ_self k)]
    · simp only [Tensor.setData]
      rw [hdata]
      exact set_map_range_append (fun k => op (fx k) (fy k)) k result.data_ (by omega)

theorem broadcastOp_of_rank_le [Zero α] (op : α → α → α) (a b : Tensor α)
    (hc : BroadcastCompatible a.shape_ b.shape_)
    (hposa : ∀ d ∈ a.shape_, 1 ≤ d) (hposb : ∀ d ∈ b.shape_, 1 ≤ d)
    (hwfa : a.data_.length = a.shape_.prod) (hwfb : b.data_.length = b.shape_.prod)
    (hrank : b.shape_.length ≤ a.shape_.length) :
    ∃ r, Tensor.broadcastOp op a b = .ok r ∧ r.shape_ = a.broadcastedShape b
      ∧ r.device_ = a.device_
      ∧ r.data_ = (List.range (calcSize (a.broadcastedShape b))).map
          (fun i => op ((a.data_[i % a.data_.length]?).getD 0)
            ((b.data_[i % b.data_.length]?).getD 0)) := by
  have hx : ∀ k, a.dataAtBroadcasted k a = .ok ((a.data_[k % a.data_.length]?).getD 0) := by
    intro k
    obtain ⟨v, hv, hd⟩ := dataAtBroadcasted_eq a a k hposa hwfa le_rfl
    rw [hd, hv]; rfl
  have hy : ∀ k, a.dataAtBroadcasted k b = .ok ((b.data_[k % b.data_.length]?).getD 0) := by
    intro k
    obtain ⟨v, hv, hd⟩ := dataAtBroadcasted_eq a b k hposb hwfb hrank
    rw [hd, hv]; rfl
  obtain ⟨r, hr, hs, hd, hdata⟩ := broadcastLoop_ok op a b _ _
    (Tensor.construct (a.broadcastedShape b) (0 : α) a.device_).size
    (Tensor.construct (a.broadcastedShape b) (0 : α) a.device_) le_rfl
    (fun k _ => hx k) (fun k _ => hy k)
  refine ⟨r, ?_, hs, hd, ?_⟩
  · unfold Tensor.broadcastOp
    rw [(validateShapeBroadcast_ok_iff a b).mpr hc]
    exact hr
  · rw [hdata]
    simp [Tensor.construct, Tensor.size]

theorem add_construct_of_rank_le [Zero α] [Add α] (s1 s2 : List Nat) (x y : α)
    (dev1 dev2 : Device) (hc : BroadcastCompatible s1 s2)
    (hpos1 : ∀ d ∈ s1, 1 ≤ d) (hpos2 : ∀ d ∈ s2, 1 ≤ d) (hrank : s2.length ≤ s1.length)
    (hfit1 : s1.prod < sizeModulus) (hfit2 : s2.prod < sizeModulus) :
    (Tensor.construct s1 x dev1).add (Tensor.construct s2 y dev2)
      = .ok (Tensor.construct (broadcastShape s1 s2) (x + y) dev1) := by
  obtain ⟨r, hr, hs, hd, hdata⟩ := broadcastOp_of_rank_le (fun u v : α => u + v)
    (Tensor.construct s1 x dev1) (Tensor.construct s2 y dev2) hc hpos1 hpos2
    (by simp [Tensor.construct, calcSize_of_lt s1 hfit1])
    (by simp [Tensor.construct, calcSize_of_lt s2 hfit2]) hrank
  unfold Tensor.add
  rw [hr]
  congr 1
  rw [broadcastedShape_eq_broadcastShape] at hs hdata
  have hp1 : 0 < calcSize s1 := by
    rw [calcSize_of_lt s1 hfit1]
    exact List.prod_pos (fun d hd => hpos1 d hd)
  have hp2 : 0 < calcSize s2 := by
    rw [calcSize_of_lt s2 hfit2]
    exact List.prod_pos (fun d hd => hpos2 d hd)
  refine Tensor.eq_of_fields r (Tensor.construct (broadcastShape s1 s2) (x + y) dev1) hs ?_ hd
  rw [hdata]
  simp only [Tensor.construct, List.length_replicate]
  apply List.ext_getElem?
  intro i
  rw [List.getElem?_map, List.getElem?_replicate]
  by_cases hi : i < calcSize (broadcastShape s1 s2)
  · rw [List.getElem?_range hi, if_pos hi]
    simp [List.getElem?_replicate, Nat.mod_lt _ hp1, Nat.mod_lt _ hp2]
  · rw [List.getElem?_eq_none (by simpa using hi), if_neg hi]
    rfl

theorem broadcastOp_of_size_zero [Zero α] (op : α → α → α) (a b : Tensor α)
    (hc : BroadcastCompatible a.shape_ b.shape_)
    (hz : calcSize (a.broadcastedShape b) = 0) :
    Tensor.broadcastOp op a b
      = .ok (Tensor.construct (a.broadcastedShape b) (0 : α) a.device_) := by
  unfold Tensor.broadcastOp
  rw [(validateShapeBroadcast_ok_iff a b).mpr hc]
  simp only [Tensor.construct, Tensor.size, hz, List.replicate, List.length_nil, broadcastLoop]

/-! ## The claims -/

/-- C1 (the code at the failing input): for the broadcast-compatible operands of
shapes [2,3] (all zeros) and [2,1] (10 in row 0, 20 in row 1), the element of
`a + b` at the valid coordinates [0,1] is 20 and that of `a - b` is -20, while
the operands read at the coordinates the specification prescribes ([0,1] for
the first, [0,0] for the second) hold 0 and 10, whose sum is 10 and whose
difference is -10: the lookup decomposes the linear index by the operand's own
shape, so a trailing size-1 dimension is not broadcast. -/
theorem add_trailing_broadcast_reads_wrong_row :
    BroadcastCompatible trailingLhs.shape_ trailingRhs.shape_
      ∧ trailingLhs.add trailingRhs
          = .ok { shape_ := [2, 3], data_ := [10, 20, 10, 20, 10, 20], device_ := .CPU }
      ∧ trailingLhs.sub trailingRhs
          = .ok { shape_ := [2, 3], data_ := [-10, -20, -10, -20, -10, -20], device_ := .CPU }
      ∧ ValidIndices [2, 3] [0, 1]
      ∧ Tensor.readAt
          ({ shape_ := [2, 3], data_ := [10, 20, 10, 20, 10, 20], device_ := .CPU } : Tensor Int)
          [0, 1] = .ok 20
      ∧ Tensor.readAt
          ({ shape_ := [2, 3], data_ := [-10, -20, -10, -20, -10, -20], device_ := .CPU } :
            Tensor Int)
          [0, 1] = .ok (-20)
      ∧ operandCoords trailingLhs.shape_ [2, 3] [0, 1] = [0, 1]
      ∧ operandCoords trailingRhs.shape_ [2, 3] [0, 1] = [0, 0]
      ∧ trailingLhs.readAt (operandCoords trailingLhs.shape_ [2, 3] [0, 1]) = .ok 0
      ∧ trailingRhs.readAt (operandCoords trailingRhs.shape_ [2, 3] [0, 1]) = .ok 10 := by
  decide


/-- C2 (the code at the failing input): the shapes [] and [3] are
broadcast-compatible with all dimensions at least 1 and broadcast to [3], yet
`construct([], 4) + construct([3], 2)` does not return `construct([3], 6)`:
the lookup of the second operand reads `shape_[0]` of the rank-0 left
operand, whose shape vector is empty.  With the operands exchanged, and on the
specification's instance [2,3] + [1,3], the sum is the constant tensor. -/
theorem add_construct_rank_zero_lhs_reads_empty_shape :
    BroadcastCompatible [] [3]
      ∧ (∀ d ∈ ([] : List Nat), 1 ≤ d) ∧ (∀ d ∈ [3], 1 ≤ d)
      ∧ broadcastShape [] [3] = [3]
      ∧ (Tensor.construct [] (4 : Int) .CPU).shape_[0]? = none
      ∧ (Tensor.construct [] (4 : Int) .CPU).add (Tensor.construct [3] 2 .CPU)
          = .error .shapeReadOutOfBounds
      ∧ (Tensor.construct [] (4 : Int) .CPU).add (Tensor.construct [3] 2 .CPU)
          ≠ .ok (Tensor.construct [3] 6 .CPU)
      ∧ (Tensor.construct [3] (2 : Int) .CPU).add (Tensor.construct [] 4 .CPU)
          = .ok (Tensor.construct [3] 6 .CPU)
      ∧ (Tensor.construct [2, 3] (5 : Int) .CPU).add (Tensor.construct [1, 3] 2 .CPU)
          = .ok (Tensor.construct [2, 3] 7 .CPU) := by
  decide

/-- C3 (counterexample): for two tensors of shape [2^32, 2^32] the sum is
returned with that shape and with no element, while the product of the shape
is 2^64; and for the broadcast-compatible shapes [0] and [1] no sum is
returned at all. -/
theorem broadcast_result_size_wraps :
    BroadcastCompatible [4294967296, 4294967296] [4294967296, 4294967296]
      ∧ (Tensor.construct [4294967296, 4294967296] (0 : Int) .CPU).add
          (Tensor.construct [4294967296, 4294967296] 0 .CPU)
          = .ok (Tensor.construct [4294967296, 4294967296] 0 .CPU)
      ∧ (Tensor.construct [4294967296, 4294967296] (0 : Int) .CPU).shape
          = [4294967296, 4294967296]
      ∧ (Tensor.construct [4294967296, 4294967296] (0 : Int) .CPU).size = 0
      ∧ [4294967296, 4294967296].prod = 18446744073709551616
      ∧ (Tensor.construct [4294967296, 4294967296] (0 : Int) .CPU).size
          ≠ (Tensor.construct [4294967296, 4294967296] (0 : Int) .CPU).shape.prod
      ∧ BroadcastCompatible [0] [1]
      ∧ (Tensor.construct [0] (0 : Int) .CPU).add (Tensor.construct [1] 0 .CPU)
          = .error .moduloByZero := by
  decide

/-- C3 (amended): for broadcast-compatible tensors `a` and `b` the shape
computed for `a + b` and `a - b` has rank `max(rank a, rank b)` and is the
elementwise maximum of the two right-aligned shapes, the shorter padded with
leading 1s; every result of `a + b` or `a - b` has that shape, and its size is
the product of that shape reduced modulo 2^64, hence the product itself when
that is below 2^64; and a result is returned whenever that size is 0, and
whenever both operands hold `product(shape)` elements, have no zero dimension
and `rank b <= rank a`. -/
theorem broadcast_result_shape [Zero α] [Add α] [Sub α] (a b : Tensor α)
    (hc : BroadcastCompatible a.shape_ b.shape_) :
    (a.broadcastedShape b).length = max a.shape_.length b.shape_.length
      ∧ a.broadcastedShape b
          = List.zipWith max (padShape (max a.shape_.length b.shape_.length) a.shape_)
              (padShape (max a.shape_.length b.shape_.length) b.shape_)
      ∧ (∀ p, p < max a.shape_.length b.shape_.length →
          (a.broadcastedShape b)[p]?
            = some (max ((padShape (max a.shape_.length b.shape_.length) a.shape_).getD p 1)
                ((padShape (max a.shape_.length b.shape_.length) b.shape_).getD p 1)))
      ∧ (∀ r, a.add b = .ok r →
          r.shape = a.broadcastedShape b
            ∧ r.size = (a.broadcastedShape b).prod % sizeModulus
            ∧ ((a.broadcastedShape b).prod < sizeModulus →
                r.size = (a.broadcastedShape b).prod))
      ∧ (∀ r, a.sub b = .ok r →
          r.shape = a.broadcastedShape b
            ∧ r.size = (a.broadcastedShape b).prod % sizeModulus
            ∧ ((a.broadcastedShape b).prod < sizeModulus →
                r.size = (a.broadcastedShape b).prod))
      ∧ ((a.broadcastedShape b).prod % sizeModulus = 0 →
          (∃ r, a.add b = .ok r) ∧ (∃ r, a.sub b = .ok r))
      ∧ ((∀ d ∈ a.shape_, 1 ≤ d) → (∀ d ∈ b.shape_, 1 ≤ d) →
          a.data_.length = a.shape_.prod → b.data_.length = b.shape_.prod →
          b.shape_.length ≤ a.shape_.length →
          (∃ r, a.add b = .ok r) ∧ (∃ r, a.sub b = .ok r)) := by
  have ha : a.shape_.length ≤ max a.shape_.length b.shape_.length := le_max_left _ _
  have hb : b.shape_.length ≤ max a.shape_.length b.shape_.length := le_max_right _ _
  have hres : ∀ (op : α → α → α) (r : Tensor α), Tensor.broadcastOp op a b = .ok r →
      r.shape = a.broadcastedShape b
        ∧ r.size = (a.broadcastedShape b).prod % sizeModulus
        ∧ ((a.broadcastedShape b).prod < sizeModulus →
            r.size = (a.broadcastedShape b).prod) := by
    intro op r hr
    obtain ⟨_, hs, hl, _⟩ := broadcastOp_ok op a b r hr
    refine ⟨hs, by rw [Tensor.size, hl, calcSize_eq_mod], ?_⟩
    intro hfit
    rw [Tensor.size, hl, calcSize_of_lt _ hfit]
  refine ⟨broadcastedShape_length a b, broadcastedShape_eq_broadcastShape a b, ?_,
    hres _, hres _, ?_, ?_⟩
  · intro p hp
    rw [broadcastedShape_eq_broadcastShape]
    unfold broadcastShape
    rw [List.getElem?_zipWith, padShape_getElem? _ _ ha p hp, padShape_getElem? _ _ hb p hp,
      padShape_getD _ _ ha p hp, padShape_getD _ _ hb p hp]
  · intro hz
    rw [← calcSize_eq_mod] at hz
    exact ⟨⟨_, broadcastOp_of_size_zero _ a b hc hz⟩, ⟨_, broadcastOp_of_size_zero _ a b hc hz⟩⟩
  · intro hpa hpb hwa hwb hrank
    obtain ⟨r1, h1, _⟩ := broadcastOp_of_rank_le (fun x y : α => x + y) a b hc hpa hpb hwa
      hwb hrank
    obtain ⟨r2, h2, _⟩ := broadcastOp_of_rank_le (fun x y : α => x - y) a b hc hpa hpb hwa
      hwb hrank
    exact ⟨⟨r1, h1⟩, ⟨r2, h2⟩⟩

/-- Witness of C3 (amended) at the shapes [2,3] and [1,3]. -/
theorem broadcast_result_shape_witness :
    BroadcastCompatible (Tensor.construct [2, 3] (5 : Int) .CPU).shape_
        (Tensor.construct [1, 3] (2 : Int) .CPU).shape_
      ∧ (∀ r, (Tensor.construct [2, 3] (5 : Int) .CPU).add (Tensor.construct [1, 3] 2 .CPU)
            = .ok r →
          r.shape = (Tensor.construct [2, 3] (5 : Int) .CPU).broadcastedShape
              (Tensor.construct [1, 3] 2 .CPU)
            ∧ r.size = ((Tensor.construct [2, 3] (5 : Int) .CPU).broadcastedShape
                (Tensor.construct [1, 3] 2 .CPU)).prod % sizeModulus
            ∧ (((Tensor.construct [2, 3] (5 : Int) .CPU).broadcastedShape
                  (Tensor.construct [1, 3] 2 .CPU)).prod < sizeModulus →
                r.size = ((Tensor.construct [2, 3] (5 : Int) .CPU).broadcastedShape
                  (Tensor.construct [1, 3] 2 .CPU)).prod))
      ∧ (Tensor.construct [2, 3] (5 : Int) .CPU).broadcastedShape
          (Tensor.construct [1, 3] 2 .CPU) = [2, 3]
      ∧ (Tensor.construct [2, 3] (5 : Int) .CPU).add (Tensor.construct [1, 3] 2 .CPU)
          = .ok (Tensor.construct [2, 3] 7 .CPU) :=
  ⟨by decide,
    (broadcast_result_shape (Tensor.construct [2, 3] (5 : Int) .CPU)
      (Tensor.construct [1, 3] 2 .CPU) (by decide)).2.2.2.1,
    by decide, by decide⟩

/-- C4: `a + b` and `a - b` fail with the shape-mismatch error exactly when the
right-aligned shapes (missing leading dimensions read as 1) have a dimension
pair `(dA, dB)` with `dA != dB`, `dA != 1` and `dB != 1`; the error is the one
raised by `validateShapeBroadcast`, the first statement of both operators, and
the outcome is the same for any operands of the same two shapes, whatever
their buffers and devices. -/
theorem add_sub_shape_mismatch_iff [Zero α] [Add α] [Sub α] (a b : Tensor α) :
    (a.add b = .error .shapeBroadcastIncompatible ↔ BroadcastIncompatible a.shape_ b.shape_)
      ∧ (a.sub b = .error .shapeBroadcastIncompatible
          ↔ BroadcastIncompatible a.shape_ b.shape_)
      ∧ (a.validateShapeBroadcast b = .error .shapeBroadcastIncompatible
          ↔ BroadcastIncompatible a.shape_ b.shape_)
      ∧ (∀ e, a.validateShapeBroadcast b = .error e → a.add b = .error e ∧ a.sub b = .error e)
      ∧ (∀ a2 b2 : Tensor α, a2.shape_ = a.shape_ → b2.shape_ = b.shape_ →
          ((a2.add b2 = .error .shapeBroadcastIncompatible
              ↔ a.add b = .error .shapeBroadcastIncompatible)
            ∧ (a2.sub b2 = .error .shapeBroadcastIncompatible
              ↔ a.sub b = .error .shapeBroadcastIncompatible))) := by
  refine ⟨broadcastOp_error_iff _ a b, broadcastOp_error_iff _ a b, ?_, ?_, ?_⟩
  · rw [validateShapeBroadcast_error_iff]
    simp
  · intro e he
    unfold Tensor.add Tensor.sub Tensor.broadcastOp
    rw [he]
    exact ⟨rfl, rfl⟩
  · intro a2 b2 ha hb
    unfold Tensor.add Tensor.sub
    rw [broadcastOp_error_iff, broadcastOp_error_iff, broadcastOp_error_iff,
      broadcastOp_error_iff, ha, hb]
    exact ⟨Iff.rfl, Iff.rfl⟩

/-- Witness of C4 at the specification's instance, shapes [2,3] and [4]. -/
theorem add_sub_shape_mismatch_iff_witness :
    BroadcastIncompatible [2, 3] [4]
      ∧ (Tensor.construct [2, 3] (0 : Int) .CPU).add (Tensor.construct [4] 0 .CPU)
          = .error .shapeBroadcastIncompatible
      ∧ (Tensor.construct [2, 3] (0 : Int) .CPU).sub (Tensor.construct [4] 0 .CPU)
          = .error .shapeBroadcastIncompatible :=
  ⟨by decide,
    (add_sub_shape_mismatch_iff (Tensor.construct [2, 3] (0 : Int) .CPU)
      (Tensor.construct [4] 0 .CPU)).1.mpr (by decide),
    (add_sub_shape_mismatch_iff (Tensor.construct [2, 3] (0 : Int) .CPU)
      (Tensor.construct [4] 0 .CPU)).2.1.mpr (by decide)⟩

/-- C5 (counterexample): under the shape [2, 2^32, 2^32] the index vector
[1, 0, 0] is valid and its row-major position is 2^64, but `getFlatIndex`
returns 0: the stride of the first dimension is computed in `size_t` and wraps
to 0.  Likewise under the shape [2^32 + 1, 2^32] the valid index vector
[2^32, 5] has row-major position 2^64 + 5 and `getFlatIndex` returns 5. -/
theorem getFlatIndex_wraps :
    ValidIndices [4294967297, 4294967296] [4294967296, 5]
      ∧ (Tensor.construct [4294967297, 4294967296] (0 : Int) .CPU).getFlatIndex
          [4294967296, 5] = .ok 5
      ∧ rowMajorFlat [4294967297, 4294967296] [4294967296, 5] = 18446744073709551621
      ∧ ValidIndices (Tensor.construct [2, 4294967296, 4294967296] (0 : Int) .CPU).shape_
        [1, 0, 0]
      ∧ (Tensor.construct [2, 4294967296, 4294967296] (0 : Int) .CPU).getFlatIndex
          [1, 0, 0] = .ok 0
      ∧ rowMajorFlat [2, 4294967296, 4294967296] [1, 0, 0] = 18446744073709551616
      ∧ (Tensor.construct [2, 4294967296, 4294967296] (0 : Int) .CPU).getFlatIndex
          [1, 0, 0]
        ≠ .ok (((List.range 3).map (fun d => [1, 0, 0].getD d 0
            * ([2, 4294967296, 4294967296].drop (d + 1)).prod)).sum) := by
  decide

/-- C5 (amended): for an index vector whose length is the rank and whose every
component is below the corresponding dimension, `getFlatIndex` returns the
row-major position, the sum over `d` of `idx[d]` times the product of the
dimensions after `d`, reduced modulo 2^64; it is the row-major position itself
whenever the product of the shape is at most 2^64; the stride of the last
dimension is 1. -/
theorem getFlatIndex_rowMajor (t : Tensor α) (idx : List Nat)
    (hlen : idx.length = t.shape_.length)
    (hidx : ∀ d, d < t.shape_.length → idx.getD d 0 < t.shape_.getD d 0) :
    t.getFlatIndex idx
        = .ok ((((List.range t.shape_.length).map
            (fun d => idx.getD d 0 * (t.shape_.drop (d + 1)).prod)).sum) % sizeModulus)
      ∧ (t.shape_.prod ≤ sizeModulus →
          t.getFlatIndex idx
            = .ok (((List.range t.shape_.length).map
                (fun d => idx.getD d 0 * (t.shape_.drop (d + 1)).prod)).sum))
      ∧ (∀ d, d + 1 = t.shape_.length → (t.shape_.drop (d + 1)).prod = 1) := by
  refine ⟨getFlatIndex_of_valid t idx ⟨hlen, hidx⟩,
    fun hfit => getFlatIndex_of_valid_of_le t idx ⟨hlen, hidx⟩ hfit, ?_⟩
  intro d hd
  rw [hd, List.drop_length, List.prod_nil]

/-- Witness of C5 (amended): index [1,2] of a 2x3 tensor is position 5. -/
theorem getFlatIndex_rowMajor_witness :
    [1, 2].length = iota23.shape_.length
      ∧ (∀ d, d < iota23.shape_.length → [1, 2].getD d 0 < iota23.shape_.getD d 0)
      ∧ iota23.shape_.prod ≤ sizeModulus
      ∧ iota23.getFlatIndex [1, 2] = .ok 5 :=
  ⟨by decide, by decide, by decide,
    (getFlatIndex_rowMajor iota23 [1, 2] (by decide) (by decide)).2.1 (by decide)⟩

/-- C6 (the code at the failing input): for the default-constructed tensor the
empty index vector is valid and `getFlatIndex` returns 0, but the buffer is
empty, so the write through `operator()` addresses a slot that does not exist
and the read that follows does not return the written value. -/
theorem writeAt_readAt_default_constructed :
    ValidIndices (Tensor.mkDefault .CPU : Tensor Int).shape_ []
      ∧ (Tensor.mkDefault .CPU : Tensor Int).getFlatIndex [] = .ok 0
      ∧ (Tensor.mkDefault .CPU : Tensor Int).data_.length = 0
      ∧ (Tensor.mkDefault .CPU : Tensor Int).writeAt [] 7
          = (.error .bufferAccessOutOfBounds, Tensor.mkDefault .CPU)
      ∧ ((Tensor.mkDefault .CPU : Tensor Int).writeAt [] 7).2.readAt []
          = .error .bufferAccessOutOfBounds
      ∧ ((Tensor.mkDefault .CPU : Tensor Int).writeAt [] 7).2.readAt [] ≠ .ok 7 := by
  decide


/-- The outcomes of the accessor, for every tensor: it fails with the
index-arity error exactly when the lengths differ, and when they agree it fails
with the out-of-range error exactly when some component is not below its
dimension; `getFlatIndex` returns an index in every other case, and the
accessor returns an element in every other case when the buffer holds
`product(shape)` elements. -/
theorem readAt_error_classification (t : Tensor α) (idx : List Nat) :
    (t.readAt idx = .error .invalidIndexArity ↔ idx.length ≠ t.shape_.length)
      ∧ (idx.length = t.shape_.length →
          (t.readAt idx = .error .indexOutOfRange
            ↔ ∃ d, d < t.shape_.length ∧ t.shape_.getD d 0 ≤ idx.getD d 0))
      ∧ (idx.length = t.shape_.length →
          (∀ d, d < t.shape_.length → idx.getD d 0 < t.shape_.getD d 0) →
          ∃ f, t.getFlatIndex idx = .ok f)
      ∧ (idx.length = t.shape_.length →
          (∀ d, d < t.shape_.length → idx.getD d 0 < t.shape_.getD d 0) →
          t.data_.length = t.shape_.prod → ∃ v, t.readAt idx = .ok v) := by
  refine ⟨readAt_error_arity t idx, readAt_error_range t idx, ?_, ?_⟩
  · intro hlen hidx
    exact ⟨_, getFlatIndex_of_valid t idx ⟨hlen, hidx⟩⟩
  · intro hlen hidx hwf
    obtain ⟨v, _, hv⟩ := readAt_of_valid t idx ⟨hlen, hidx⟩ hwf
    exact ⟨v, hv⟩

/-- C7 (the code at the failing input): on the default-constructed tensor the
empty index vector has the right length and no component out of range, so
neither error is raised, yet the accessor does not succeed: it evaluates
`data_[0]` on an empty buffer. -/
theorem readAt_default_constructed :
    ([] : List Nat).length = (Tensor.mkDefault .CPU : Tensor Int).shape_.length
      ∧ (∀ d, d < (Tensor.mkDefault .CPU : Tensor Int).shape_.length →
          ([] : List Nat).getD d 0 < (Tensor.mkDefault .CPU : Tensor Int).shape_.getD d 0)
      ∧ (Tensor.mkDefault .CPU : Tensor Int).readAt [] ≠ .error .invalidIndexArity
      ∧ (Tensor.mkDefault .CPU : Tensor Int).readAt [] ≠ .error .indexOutOfRange
      ∧ (Tensor.mkDefault .CPU : Tensor Int).readAt [] = .error .bufferAccessOutOfBounds := by
  decide


/-- C8 (counterexample): `construct([2^32, 2^32], 5)` holds no element, while
the product of the dimensions is 2^64. -/
theorem construct_size_wraps :
    (Tensor.construct [4294967296, 4294967296] (5 : Int) .CPU).size = 0
      ∧ [4294967296, 4294967296].prod = 18446744073709551616
      ∧ (Tensor.construct [4294967296, 4294967296] (5 : Int) .CPU).size
          ≠ [4294967296, 4294967296].prod := by
  decide

/-- C8 (amended): for every shape `s` and fill value `v`,
`construct(s, v).size()` is the product of the dimensions of `s` reduced
modulo 2^64, hence the product itself when that is below 2^64, `.shape()` is
`s`, and every element of the buffer is `v`; the empty shape gives one element
and a shape containing a 0 gives none. -/
theorem construct_size_shape_fill (s : List Nat) (v : α) (dev : Device) :
    (Tensor.construct s v dev).size = s.prod % sizeModulus
      ∧ (s.prod < sizeModulus →
          (Tensor.construct s v dev).size = s.prod
            ∧ (Tensor.construct s v dev).data_ = List.replicate s.prod v
            ∧ ∀ i, i < s.prod → (Tensor.construct s v dev).data_[i]? = some v)
      ∧ (Tensor.construct s v dev).shape = s
      ∧ (Tensor.construct s v dev).data_ = List.replicate (s.prod % sizeModulus) v
      ∧ (∀ x ∈ (Tensor.construct s v dev).data_, x = v)
      ∧ (Tensor.construct [] v dev).data_ = [v]
      ∧ (0 ∈ s → (Tensor.construct s v dev).data_ = []) := by
  have hd : (Tensor.construct s v dev).data_ = List.replicate (s.prod % sizeModulus) v := by
    simp [Tensor.construct, calcSize_eq_mod]
  refine ⟨?_, ?_, rfl, hd, ?_, ?_, ?_⟩
  · rw [Tensor.size, hd, List.length_replicate]
  · intro hfit
    rw [Nat.mod_eq_of_lt hfit] at hd
    refine ⟨by rw [Tensor.size, hd, List.length_replicate], hd, ?_⟩
    intro i hi
    rw [hd, List.getElem?_replicate, if_pos hi]
  · intro x hx
    rw [hd] at hx
    exact List.eq_of_mem_replicate hx
  · simp [Tensor.construct, calcSize_eq_mod, sizeModulus]
  · intro h0
    rw [hd, List.prod_eq_zero h0]
    rfl

/-- Witness of C8 (amended) at the shapes [2,3], [] and [2,0]. -/
theorem construct_size_shape_fill_witness :
    [2, 3].prod < sizeModulus
      ∧ (Tensor.construct [2, 3] (5 : Int) .CPU).size = 6
      ∧ (Tensor.construct [] (5 : Int) .CPU).size = 1
      ∧ (Tensor.construct [2, 0] (5 : Int) .CPU).data_ = [] :=
  ⟨by decide,
    ((construct_size_shape_fill [2, 3] (5 : Int) .CPU).2.1 (by decide)).1,
    ((construct_size_shape_fill [] (5 : Int) .CPU).2.1 (by decide)).1,
    (construct_size_shape_fill [2, 0] (5 : Int) .CPU).2.2.2.2.2.2 (by decide)⟩

/-- C9 (the code at the failing input): the default constructor `Tensor()`
leaves `shape_` and `data_` both empty, so the buffer holds 0 elements while
the product of its (empty) shape is 1, the element count the explicit
constructor allocates for the same shape. -/
theorem default_constructed_size_invariant_broken :
    (Tensor.mkDefault .CPU : Tensor Int).shape_ = []
      ∧ (Tensor.mkDefault .CPU : Tensor Int).data_.length = 0
      ∧ (Tensor.mkDefault .CPU : Tensor Int).shape_.prod = 1
      ∧ calcSize (Tensor.mkDefault .CPU : Tensor Int).shape_ = 1
      ∧ (Tensor.mkDefault .CPU : Tensor Int).data_.length
          ≠ (Tensor.mkDefault .CPU : Tensor Int).shape_.prod
      ∧ (Tensor.construct [] (0 : Int) .CPU).data_.length = 1 := by
  decide

theorem scalarLoop_frame (f : α → α) (src : List α) (n : Nat) (result r : Tensor α)
    (h : scalarLoop f src n result = .ok r) :
    r.shape_ = result.shape_ ∧ r.device_ = result.device_
      ∧ r.data_.length = result.data_.length := by
  induction n generalizing r with
  | zero =>
    simp only [scalarLoop] at h
    injection h with h
    subst h
    exact ⟨rfl, rfl, rfl⟩
  | succ k ih =>
    rw [scalarLoop] at h
    split at h
    · cases h
    · rename_i o hk
      split at h
      · cases h
      · split at h
        · injection h with h
          obtain ⟨h1, h2, h3⟩ := ih _ hk
          subst h
          exact ⟨h1, h2, by simp [Tensor.setData, h3]⟩
        · cases h

theorem scalarOp_ok [Zero α] (f : α → α) (t r : Tensor α)
    (h : Tensor.scalarOp f t = .ok r) :
    r.shape_ = t.shape_ ∧ r.device_ = t.device_ ∧ r.data_.length = calcSize t.shape_ := by
  unfold Tensor.scalarOp at h
  obtain ⟨h1, h2, h3⟩ := scalarLoop_frame _ _ _ _ _ h
  exact ⟨h1, h2, by simpa [Tensor.construct] using h3⟩

/-- The size relation the code maintains, `data_.size() == calcSize(shape_)`
(the product of the shape when that is below 2^64), on every path that keeps
it: the explicit constructor establishes it; every result of `+`, `-`, `*` and
`/` has it; a write through the accessor and a `reshape`, successful or not,
leave an instance that has it whenever the instance had it before. -/
theorem size_invariant_kept [Zero α] [Add α] [Sub α] [Mul α] [Div α] [DecidableEq α]
    (t : Tensor α) :
    (∀ s v dev, (Tensor.construct s v dev : Tensor α).data_.length = calcSize s)
      ∧ (∀ s, s.prod < sizeModulus → calcSize s = s.prod)
      ∧ (∀ b r, t.add b = .ok r → r.data_.length = calcSize r.shape_)
      ∧ (∀ b r, t.sub b = .ok r → r.data_.length = calcSize r.shape_)
      ∧ (∀ k r, t.mul k = .ok r → r.data_.length = calcSize r.shape_)
      ∧ (∀ k r, t.div k = .ok r → r.data_.length = calcSize r.shape_)
      ∧ (∀ idx w, t.data_.length = calcSize t.shape_ →
          (t.writeAt idx w).2.data_.length = calcSize (t.writeAt idx w).2.shape_)
      ∧ (∀ newShape, t.data_.length = calcSize t.shape_ →
          (t.reshape newShape).2.data_.length = calcSize (t.reshape newShape).2.shape_) := by
  refine ⟨?_, calcSize_of_lt, ?_, ?_, ?_, ?_, ?_, ?_⟩
  · intro s v dev
    simp [Tensor.construct]
  · intro b r hr
    obtain ⟨_, hs, hl, _⟩ := broadcastOp_ok _ t b r hr
    rw [hl, hs]
  · intro b r hr
    obtain ⟨_, hs, hl, _⟩ := broadcastOp_ok _ t b r hr
    rw [hl, hs]
  · intro k r hr
    obtain ⟨hs, _, hl⟩ := scalarOp_ok _ t r hr
    rw [hl, hs]
  · intro k r hr
    unfold Tensor.div at hr
    split at hr
    · cases hr
    · obtain ⟨hs, _, hl⟩ := scalarOp_ok _ t r hr
      rw [hl, hs]
  · intro idx w hwf
    obtain ⟨hs, _, hl⟩ := writeAt_shape t idx w
    rw [hs, hl, hwf]
  · intro newShape hwf
    unfold Tensor.reshape
    split
    · exact hwf
    · rename_i h
      simp only [ne_eq, not_not] at h
      simp only []
      rw [← h]

/-- C10 (counterexample): a tensor of shape [0], which holds no element, is
reshaped to [2^32, 2^32] without error although the product of the new shape
is 2^64 and not 0; afterwards the index vector [0, 0] is valid and the accessor
addresses `data_[0]` of the empty buffer. -/
theorem reshape_accepts_wrapped_product :
    (Tensor.construct [0] (4 : Int) .CPU).size = 0
      ∧ [4294967296, 4294967296].prod = 18446744073709551616
      ∧ [4294967296, 4294967296].prod ≠ (Tensor.construct [0] (4 : Int) .CPU).size
      ∧ ((Tensor.construct [0] (4 : Int) .CPU).reshape [4294967296, 4294967296]).1 = .ok ()
      ∧ ValidIndices [4294967296, 4294967296] [0, 0]
      ∧ ((Tensor.construct [0] (4 : Int) .CPU).reshape [4294967296, 4294967296]).2.readAt
          [0, 0] = .error .bufferAccessOutOfBounds := by
  decide

/-- C10 (amended): `reshape(newShape)` succeeds exactly when `product(newShape)`
reduced modulo 2^64 is the tensor's size, which for a product below 2^64 means
that the product is the size, and fails with the reshape-size-mismatch error
otherwise; on success the shape is `newShape`, size and device are unchanged
and the buffer is the same at every storage position; and when the product is
below 2^64 the accessor at every index vector valid under `newShape` returns
the value the buffer held before the call at the row-major position of that
index vector under `newShape`. -/
theorem reshape_succeeds_iff_and_frame (t : Tensor α) (newShape : List Nat) :
    ((t.reshape newShape).1 = .ok () ↔ newShape.prod % sizeModulus = t.size)
      ∧ (newShape.prod < sizeModulus →
          ((t.reshape newShape).1 = .ok () ↔ newShape.prod = t.size))
      ∧ ((t.reshape newShape).1 ≠ .ok () →
          (t.reshape newShape).1 = .error .reshapeSizeMismatch)
      ∧ ((t.reshape newShape).1 = .ok () →
          (t.reshape newShape).2.shape = newShape
            ∧ (t.reshape newShape).2.size = t.size
            ∧ (t.reshape newShape).2.device = t.device
            ∧ (∀ k : Nat, (t.reshape newShape).2.data_[k]? = t.data_[k]?)
            ∧ (newShape.prod < sizeModulus → ∀ idx, ValidIndices newShape idx →
                ∃ v, t.data_[rowMajorFlat newShape idx]? = some v
                  ∧ (t.reshape newShape).2.readAt idx = .ok v)) := by
  have hiff : (t.reshape newShape).1 = .ok () ↔ newShape.prod % sizeModulus = t.size := by
    unfold Tensor.reshape
    rw [← calcSize_eq_mod, Tensor.size]
    by_cases h : calcSize newShape = t.data_.length
    · rw [if_neg (by simpa using h)]
      simp [h]
    · rw [if_pos h]
      simp [h]
  refine ⟨hiff, ?_, ?_, ?_⟩
  · intro hfit
    rw [hiff, Nat.mod_eq_of_lt hfit]
  · unfold Tensor.reshape
    by_cases h : calcSize newShape = t.data_.length
    · rw [if_neg (by simpa using h)]
      intro hne; exact absurd rfl hne
    · rw [if_pos h]
      intro _; rfl
  · intro hok
    have hsz := hiff.mp hok
    unfold Tensor.reshape
    rw [if_neg (by rw [calcSize_eq_mod, hsz, Tensor.size]; simp)]
    refine ⟨rfl, rfl, rfl, fun k => rfl, ?_⟩
    intro hfit idx hidx
    rw [Nat.mod_eq_of_lt hfit] at hsz
    exact readAt_of_valid { t with shape_ := newShape } idx hidx (by simpa [Tensor.size] using hsz.symm)

/-- Witness of C10 (amended) at the specification's instance: the values 0..5
under [2,3] reshaped to [3,2] (index [2,1] reads storage position 5), and the
failing reshape to [4,2]. -/
theorem reshape_succeeds_iff_and_frame_witness :
    [3, 2].prod < sizeModulus
      ∧ (iota23.reshape [3, 2]).1 = .ok ()
      ∧ (iota23.reshape [3, 2]).2.shape = [3, 2]
      ∧ (iota23.reshape [3, 2]).2.data_ = [0, 1, 2, 3, 4, 5]
      ∧ ValidIndices [3, 2] [2, 1]
      ∧ (∃ v, iota23.data_[rowMajorFlat [3, 2] [2, 1]]? = some v
          ∧ (iota23.reshape [3, 2]).2.readAt [2, 1] = .ok v)
      ∧ (iota23.reshape [3, 2]).2.readAt [2, 1] = .ok 5
      ∧ (iota23.reshape [4, 2]).1 = .error .reshapeSizeMismatch :=
  ⟨by decide,
    ((reshape_succeeds_iff_and_frame iota23 [3, 2]).2.1 (by decide)).mpr (by decide),
    ((reshape_succeeds_iff_and_frame iota23 [3, 2]).2.2.2 (by decide)).1,
    by decide, by decide,
    ((reshape_succeeds_iff_and_frame iota23 [3, 2]).2.2.2 (by decide)).2.2.2.2 (by decide)
      [2, 1] (by decide),
    by decide,
    (reshape_succeeds_iff_and_frame iota23 [4, 2]).2.2.1 (by decide)⟩

/-- C11 (counterexample): a tensor of two elements is reshaped to
[2^63 + 1, 2] without error, and its shape is overwritten, although the
product of the new shape is 2^64 + 2 and not 2. -/
theorem reshape_overwrites_on_wrapped_product :
    (Tensor.construct [2] (4 : Int) .CPU).size = 2
      ∧ [9223372036854775809, 2].prod = 18446744073709551618
      ∧ [9223372036854775809, 2].prod ≠ (Tensor.construct [2] (4 : Int) .CPU).size
      ∧ ((Tensor.construct [2] (4 : Int) .CPU).reshape [9223372036854775809, 2]).1 = .ok ()
      ∧ ((Tensor.construct [2] (4 : Int) .CPU).reshape [9223372036854775809, 2]).2.shape
          = [9223372036854775809, 2]
      ∧ ((Tensor.construct [2] (4 : Int) .CPU).reshape [9223372036854775809, 2]).2
          ≠ Tensor.construct [2] (4 : Int) .CPU := by
  decide

/-- C11 (amended): when `product(newShape)` reduced modulo 2^64 differs from the
tensor's size, in particular when the product is below 2^64 and differs from
the size, `reshape` fails with the reshape-size-mismatch error and the instance
after the call is the instance before it: same shape, same buffer, same
device. -/
theorem reshape_mismatch_unchanged (t : Tensor α) (newShape : List Nat)
    (h : newShape.prod % sizeModulus ≠ t.size) :
    (t.reshape newShape).1 = .error .reshapeSizeMismatch
      ∧ (t.reshape newShape).2 = t
      ∧ (t.reshape newShape).2.shape = t.shape
      ∧ (t.reshape newShape).2.data_ = t.data_
      ∧ (t.reshape newShape).2.device = t.device := by
  have hc : calcSize newShape ≠ t.data_.length := by
    rw [calcSize_eq_mod]; exact h
  unfold Tensor.reshape
  rw [if_pos hc]
  exact ⟨rfl, rfl, rfl, rfl, rfl⟩

/-- Witness of C11 (amended) at the specification's instance: six elements
reshaped to [4,2]. -/
theorem reshape_mismatch_unchanged_witness :
    [4, 2].prod % sizeModulus ≠ iota23.size
      ∧ [4, 2].prod < sizeModulus
      ∧ [4, 2].prod ≠ iota23.size
      ∧ (iota23.reshape [4, 2]).1 = .error .reshapeSizeMismatch
      ∧ (iota23.reshape [4, 2]).2 = iota23 :=
  ⟨by decide, by decide, by decide,
    (reshape_mismatch_unchanged iota23 [4, 2] (by decide)).1,
    (reshape_mismatch_unchanged iota23 [4, 2] (by decide)).2.1⟩

/-! ## Reachable values -/

theorem alignedDim_lt (s : List Nat) (hs : ∀ d ∈ s, d < sizeModulus) (i : Nat) :
    alignedDim s i < sizeModulus := by
  unfold alignedDim
  split
  · rename_i hi
    have hlt : s.length - 1 - i < s.length := by omega
    rw [List.getD_eq_getElem?_getD, List.getElem?_eq_getElem hlt]
    exact hs _ (List.getElem_mem hlt)
  · decide

theorem broadcastedShape_lt (a b : Tensor α) (ha : ∀ d ∈ a.shape_, d < sizeModulus)
    (hb : ∀ d ∈ b.shape_, d < sizeModulus) : ∀ d ∈ a.broadcastedShape b, d < sizeModulus := by
  intro d hd
  unfold Tensor.broadcastedShape at hd
  rw [List.mem_reverse, List.mem_map] at hd
  obtain ⟨i, _, rfl⟩ := hd
  exact max_lt (alignedDim_lt _ ha i) (alignedDim_lt _ hb i)

theorem reachable_size [Zero α] [Add α] [Sub α] [Mul α] [Div α] [DecidableEq α]
    (t : Tensor α) (h : t.Reachable) :
    (∀ d ∈ t.shape_, d < sizeModulus)
      ∧ (t.data_.length = calcSize t.shape_ ∨ (t.shape_ = [] ∧ t.data_ = [])) := by
  induction h with
  | construct s v dev hs => exact ⟨hs, Or.inl (by simp [Tensor.construct])⟩
  | mkDefault dev =>
    exact ⟨(by intro d hd; cases hd), Or.inr ⟨rfl, rfl⟩⟩
  | writeAt t idx w _ ih =>
    obtain ⟨hs, _, hl⟩ := writeAt_shape t idx w
    refine ⟨by rw [hs]; exact ih.1, ?_⟩
    rcases ih.2 with ih2 | ⟨ih1, ih2⟩
    · left; rw [hs, hl, ih2]
    · right
      refine ⟨by rw [hs, ih1], ?_⟩
      apply List.eq_nil_of_length_eq_zero
      rw [hl, ih2]; rfl
  | reshape t newShape hn _ ih =>
    unfold Tensor.reshape
    split
    · exact ih
    · rename_i hc
      simp only [ne_eq, not_not] at hc
      exact ⟨hn, Or.inl hc.symm⟩
  | add a b r _ _ hr iha ihb =>
    obtain ⟨_, hs, hl, _⟩ := broadcastOp_ok _ a b r hr
    exact ⟨by rw [hs]; exact broadcastedShape_lt a b iha.1 ihb.1, Or.inl (by rw [hl, hs])⟩
  | sub a b r _ _ hr iha ihb =>
    obtain ⟨_, hs, hl, _⟩ := broadcastOp_ok _ a b r hr
    exact ⟨by rw [hs]; exact broadcastedShape_lt a b iha.1 ihb.1, Or.inl (by rw [hl, hs])⟩
  | mul t k r _ hr ih =>
    obtain ⟨hs, _, hl⟩ := scalarOp_ok _ t r hr
    exact ⟨by rw [hs]; exact ih.1, Or.inl (by rw [hl, hs])⟩
  | div t k r _ hr ih =>
    unfold Tensor.div at hr
    split at hr
    · cases hr
    · obtain ⟨hs, _, hl⟩ := scalarOp_ok _ t r hr
      exact ⟨by rw [hs]; exact ih.1, Or.inl (by rw [hl, hs])⟩

theorem reachable_size_of_rank_one [Zero α] [Add α] [Sub α] [Mul α] [Div α] [DecidableEq α]
    (t : Tensor α) (h : t.Reachable) (n : Nat) (hs : t.shape_ = [n]) :
    t.data_.length = n := by
  obtain ⟨hlt, hsz⟩ := reachable_size t h
  have hn : n < sizeModulus := hlt n (by rw [hs]; simp)
  rcases hsz with hsz | ⟨h0, _⟩
  · rw [hsz, hs, calcSize_of_lt _ (by simpa using hn)]
    simp
  · rw [hs] at h0
    cases h0

/-! ## Dot product (`dot`) -/

theorem dotLoop_error [Add α] [Mul α] (a b : List α) (n : Nat) (r0 : α) (e : TensorError)
    (h : dotLoop a b n r0 = .error e) : e = .bufferAccessOutOfBounds := by
  induction n generalizing e with
  | zero => simp [dotLoop] at h
  | succ k ih =>
    rw [dotLoop] at h
    split at h
    · rename_i e' hk
      injection h with h
      subst h
      exact ih _ hk
    · split at h
      · cases h
      · injection h with h; exact h.symm

theorem dotLoop_ok [Add α] [Mul α] (a b : List α) (n : Nat) (r0 : α)
    (ha : n ≤ a.length) (hb : n ≤ b.length) :
    dotLoop a b n r0
      = .ok ((List.zipWith (fun x y => x * y) (a.take n) (b.take n)).foldl
          (fun acc p => acc + p) r0) := by
  induction n with
  | zero => simp [dotLoop]
  | succ k ih =>
    have hka : k < a.length := by omega
    have hkb : k < b.length := by omega
    rw [dotLoop, ih (by omega) (by omega), List.getElem?_eq_getElem hka,
      List.getElem?_eq_getElem hkb]
    simp only []
    rw [List.take_succ, List.take_succ, List.getElem?_eq_getElem hka,
      List.getElem?_eq_getElem hkb]
    simp only [Option.toList]
    rw [List.zipWith_append _ (a.take k) [a[k]] (b.take k) [b[k]]
      (by rw [List.length_take, List.length_take]; omega), List.foldl_append]
    rfl

theorem dotSum_eq_range_foldl [Zero α] [Add α] [Mul α] (a b : List α) (n : Nat)
    (ha : a.length = n) (hb : b.length = n) :
    dotSum a b
      = (List.range n).foldl (fun acc i => acc + (a.getD i 0) * (b.getD i 0)) 0 := by
  have key : ∀ k, k ≤ n →
      (List.zipWith (fun x y => x * y) (a.take k) (b.take k)).foldl (fun acc p => acc + p) 0
        = (List.range k).foldl (fun acc i => acc + (a.getD i 0) * (b.getD i 0)) 0 := by
    intro k
    induction k with
    | zero => intro _; simp
    | succ k ih =>
      intro hk
      have hka : k < a.length := by omega
      have hkb : k < b.length := by omega
      rw [List.take_succ, List.take_succ, List.getElem?_eq_getElem hka,
        List.getElem?_eq_getElem hkb]
      simp only [Option.toList]
      rw [List.zipWith_append _ (a.take k) [a[k]] (b.take k) [b[k]]
        (by rw [List.length_take, List.length_take]; omega), List.foldl_append,
        ih (by omega), List.range_succ, List.foldl_append]
      simp [List.getD_eq_getElem?_getD, List.getElem?_eq_getElem hka,
        List.getElem?_eq_getElem hkb]
  have := key n le_rfl
  rw [List.take_of_length_le (by omega), List.take_of_length_le (by omega)] at this
  exact this

/-- C12: `a.dot(b)` fails with the rank/size-mismatch error exactly when it is
not the case that both operands have rank 1 and equal length; and for tensors
a program can hold, both of shape `[n]`, it returns the products `a[i] * b[i]`
added in index order `i = 0 .. n-1` to an accumulator starting at zero. -/
theorem dot_mismatch_iff_and_sum [Zero α] [Add α] [Sub α] [Mul α] [Div α] [DecidableEq α]
    (a b : Tensor α) :
    (a.dot b = .error .dotRankOrSizeMismatch
        ↔ ¬ (a.shape_.length = 1 ∧ b.shape_.length = 1
              ∧ a.shape_.getD 0 0 = b.shape_.getD 0 0))
      ∧ (a.Reachable → b.Reachable → ∀ n, a.shape_ = [n] → b.shape_ = [n] →
          a.data_.length = n ∧ b.data_.length = n
            ∧ a.dot b = .ok (dotSum a.data_ b.data_)
            ∧ a.dot b = .ok ((List.range n).foldl
                (fun acc i => acc + (a.data_.getD i 0) * (b.data_.getD i 0)) 0)) := by
  constructor
  · unfold Tensor.dot
    by_cases hc : a.shape_.length ≠ 1 ∨ b.shape_.length ≠ 1
        ∨ a.shape_.getD 0 0 ≠ b.shape_.getD 0 0
    · rw [if_pos hc]
      simp only [true_iff]
      intro ⟨h1, h2, h3⟩
      rcases hc with h | h | h
      · exact h h1
      · exact h h2
      · exact h h3
    · rw [if_neg hc]
      push_neg at hc
      constructor
      · intro h
        have := dotLoop_error _ _ _ _ _ h
        cases this
      · intro h
        exact absurd hc h
  · intro ha hb n hsa hsb
    have hla : a.data_.length = n := reachable_size_of_rank_one a ha n hsa
    have hlb : b.data_.length = n := reachable_size_of_rank_one b hb n hsb
    have hdot : a.dot b = .ok (dotSum a.data_ b.data_) := by
      unfold Tensor.dot
      rw [if_neg (by rw [hsa, hsb]; simp), dotLoop_ok _ _ _ _ le_rfl (by omega)]
      unfold dotSum
      rw [List.take_length, hla, ← hlb, List.take_length]
    refine ⟨hla, hlb, hdot, ?_⟩
    rw [hdot]
    congr 1
    exact dotSum_eq_range_foldl a.data_ b.data_ n hla hlb

/-- Witness of C12 at the specification's instance. -/
theorem dot_mismatch_iff_and_sum_witness :
    (Tensor.construct [3] (1 : Int) .CPU).dot (Tensor.construct [3] 2 .CPU) = .ok 6
      ∧ (Tensor.construct [3] (1 : Int) .CPU).dot (Tensor.construct [2, 3] 2 .CPU)
          = .error .dotRankOrSizeMismatch :=
  ⟨((dot_mismatch_iff_and_sum (Tensor.construct [3] (1 : Int) .CPU)
      (Tensor.construct [3] 2 .CPU)).2 (Tensor.Reachable.construct _ _ _ (by decide))
      (Tensor.Reachable.construct _ _ _ (by decide)) 3 rfl rfl).2.2.1,
    (dot_mismatch_iff_and_sum (Tensor.construct [3] (1 : Int) .CPU)
      (Tensor.construct [2, 3] 2 .CPU)).1.mpr (by decide)⟩

/-! ## Scalar arithmetic (`operator*`, `operator/`) -/

theorem scalarLoop_error (f : α → α) (src : List α) (n : Nat) (result : Tensor α)
    (e : TensorError) (h : scalarLoop f src n result = .error e) :
    e = .bufferAccessOutOfBounds := by
  induction n generalizing e with
  | zero => simp [scalarLoop] at h
  | succ k ih =>
    rw [scalarLoop] at h
    split at h
    · rename_i e' hk
      injection h with h
      subst h
      exact ih _ hk
    · split at h
      · injection h with h; exact h.symm
      · split at h
        · cases h
        · injection h with h; exact h.symm

theorem set_map_take_append (f : α → α) (src out : List α) (k : Nat)
    (hs : k < src.length) (ho : k < out.length) :
    ((src.take k).map f ++ out.drop k).set k (f (src.get ⟨k, hs⟩))
      = (src.take (k + 1)).map f ++ out.drop (k + 1) := by
  apply List.ext_getElem?
  intro j
  rw [List.getElem?_set]
  by_cases hjk : k = j
  · subst hjk
    rw [if_pos rfl, if_pos (by simp; omega),
      List.getElem?_append_left (by simp; omega)]
    simp [List.getElem?_take, List.getElem?_eq_getElem hs]
  · rw [if_neg hjk]
    by_cases hlt : j < k
    · rw [List.getElem?_append_left (by simp; omega),
        List.getElem?_append_left (by simp; omega)]
      simp [List.getElem?_take, hlt, Nat.lt_succ_of_lt hlt]
    · rw [List.getElem?_append_right (by simp; omega),
        List.getElem?_append_right (by simp; omega)]
      simp only [List.length_map, List.length_take, List.getElem?_drop]
      congr 1
      omega

theorem scalarLoop_ok (f : α → α) (src : List α) (n : Nat) (result : Tensor α)
    (hs : n ≤ src.length) (ho : n ≤ result.data_.length) :
    ∃ r, scalarLoop f src n result = .ok r ∧ r.shape_ = result.shape_
      ∧ r.device_ = result.device_
      ∧ r.data_ = (src.take n).map f ++ result.data_.drop n := by
  induction n with
  | zero => exact ⟨result, rfl, rfl, rfl, by simp⟩
  | succ k ih =>
    have hks : k < src.length := by omega
    obtain ⟨r, hr, hsh, hd, hdata⟩ := ih (by omega) (by omega)
    have hkr : k < r.data_.length := by
      rw [hdata]; simp; omega
    refine ⟨r.setData k (f (src.get ⟨k, hks⟩)), ?_, hsh, hd, ?_⟩
    · rw [scalarLoop, hr, List.getElem?_eq_getElem hks]
      simp only []
      rw [if_pos hkr]
      rfl
    · simp only [Tensor.setData]
      rw [hdata]
      exact set_map_take_append f src result.data_ k hks (by omega)

/-- For a tensor whose buffer holds `calcSize(shape_)` elements, as every
tensor built by the explicit constructor does, `operator*` and a division by
a non-zero scalar return a tensor of the same shape and device whose buffer is
the operand's buffer with every element multiplied, respectively divided. -/
theorem scalar_elementwise_of_size_eq [Zero α] [Mul α] [Div α] [DecidableEq α]
    (t : Tensor α) (k : α) (hwf : t.data_.length = calcSize t.shape_) :
    (∃ r, t.mul k = .ok r ∧ r.shape = t.shape ∧ r.device = t.device
        ∧ r.data_ = t.data_.map (fun x => x * k))
      ∧ (k ≠ 0 → ∃ r, t.div k = .ok r ∧ r.shape = t.shape ∧ r.device = t.device
        ∧ r.data_ = t.data_.map (fun x => x / k))
      ∧ (t.div k = .error .divisionByZero ↔ k = 0) := by
  have key : ∀ f : α → α, ∃ r, Tensor.scalarOp f t = .ok r ∧ r.shape = t.shape
      ∧ r.device = t.device ∧ r.data_ = t.data_.map f := by
    intro f
    obtain ⟨r, hr, hs, hd, hdata⟩ := scalarLoop_ok f t.data_ t.data_.length
      (Tensor.construct t.shape_ (0 : α) t.device_) le_rfl
      (by simp [Tensor.construct, hwf])
    refine ⟨r, hr, hs, hd, ?_⟩
    rw [hdata, List.take_length, List.drop_eq_nil_of_le (by simp [Tensor.construct, hwf]),
      List.append_nil]
  refine ⟨key _, ?_, ?_⟩
  · intro hk
    unfold Tensor.div
    rw [if_neg hk]
    exact key _
  · unfold Tensor.div
    by_cases hk : k = 0
    · simp [hk]
    · rw [if_neg hk]
      simp only [hk, iff_false]
      intro h
      have := scalarLoop_error _ _ _ _ _ h
      cases this

/-- C13 (the code at the failing input): the default-constructed tensor holds
no element, and `t * 3` is a tensor of the same shape [] that holds one
element, `T()`: at storage position 0 the result has an element although the
operand has none to multiply. -/
theorem mul_default_constructed_gains_element :
    (Tensor.mkDefault .CPU : Tensor Int).data_ = []
      ∧ (Tensor.mkDefault .CPU : Tensor Int).mul 3
          = .ok { shape_ := [], data_ := [0], device_ := .CPU }
      ∧ (Tensor.mkDefault .CPU : Tensor Int).size = 0
      ∧ Tensor.size ({ shape_ := [], data_ := [0], device_ := .CPU } : Tensor Int) = 1
      ∧ (Tensor.mkDefault .CPU : Tensor Int).data_[0]? = none
      ∧ ({ shape_ := [], data_ := [0], device_ := .CPU } : Tensor Int).data_[0]? = some 0 := by
  decide

/-- C14 (the code at the failing input): the default-constructed tensor is
empty, the scalar 2 is not zero, and `t / 2` is a tensor of the same shape []
that holds one element, `T()`: at storage position 0 the result has an
element although the operand has none to divide. -/
theorem div_default_constructed_gains_element :
    (Tensor.mkDefault .CPU : Tensor Int).data_ = []
      ∧ (2 : Int) ≠ 0
      ∧ (Tensor.mkDefault .CPU : Tensor Int).div 2
          = .ok { shape_ := [], data_ := [0], device_ := .CPU }
      ∧ (Tensor.mkDefault .CPU : Tensor Int).size = 0
      ∧ Tensor.size ({ shape_ := [], data_ := [0], device_ := .CPU } : Tensor Int) = 1
      ∧ (Tensor.mkDefault .CPU : Tensor Int).data_[0]? = none
      ∧ ({ shape_ := [], data_ := [0], device_ := .CPU } : Tensor Int).data_[0]? = some 0
      ∧ (Tensor.construct [3] (1 : Int) .CPU).div 0 = .error .divisionByZero := by
  decide

/-! ## The device tag -/

theorem dataAtBroadcasted_congr (self self2 src src2 : Tensor α) (i : Nat)
    (hs : self2.shape_ = self.shape_) (hss : src2.shape_ = src.shape_)
    (hsd : src2.data_ = src.data_) :
    self2.dataAtBroadcasted i src2 = self.dataAtBroadcasted i src := by
  unfold Tensor.dataAtBroadcasted Tensor.readAt Tensor.getFlatIndex
  rw [hs, hss, hsd]


theorem broadcastLoop_congr (op : α → α → α) (a a2 b b2 : Tensor α) (n : Nat)
    (result : Tensor α) (has : a2.shape_ = a.shape_) (had : a2.data_ = a.data_)
    (hbs : b2.shape_ = b.shape_) (hbd : b2.data_ = b.data_) :
    broadcastLoop op a2 b2 n result = broadcastLoop op a b n result := by
  induction n with
  | zero => rfl
  | succ k ih =>
    rw [broadcastLoop, broadcastLoop, ih, dataAtBroadcasted_congr a a2 a a2 k has has had,
      dataAtBroadcasted_congr a a2 b b2 k has hbs hbd]

theorem broadcastLoop_device (op : α → α → α) (a b : Tensor α) (n : Nat)
    (result : Tensor α) (dev : Device) :
    broadcastLoop op a b n { result with device_ := dev }
      = match broadcastLoop op a b n result with
        | .error e => .error e
        | .ok r => .ok { r with device_ := dev } := by
  induction n with
  | zero => rfl
  | succ k ih =>
    rw [broadcastLoop, broadcastLoop, ih]
    cases broadcastLoop op a b k result with
    | error e => rfl
    | ok r =>
      simp only []
      cases a.dataAtBroadcasted k a with
      | error e => rfl
      | ok x =>
        simp only []
        cases a.dataAtBroadcasted k b with
        | error e => rfl
        | ok y => rfl

theorem broadcastOp_congr [Zero α] (op : α → α → α) (a a2 b b2 : Tensor α)
    (has : a2.shape_ = a.shape_) (had : a2.data_ = a.data_)
    (hbs : b2.shape_ = b.shape_) (hbd : b2.data_ = b.data_) :
    Tensor.broadcastOp op a2 b2
      = match Tensor.broadcastOp op a b with
        | .error e => .error e
        | .ok r => .ok { r with device_ := a2.device_ } := by
  unfold Tensor.broadcastOp Tensor.validateShapeBroadcast Tensor.broadcastedShape
  rw [has, hbs]
  cases hv : validateShapeBroadcastLoop a.shape_ b.shape_
      (max a.shape_.length b.shape_.length) with
  | error e => rfl
  | ok u =>
    simp only []
    rw [broadcastLoop_congr op a a2 b b2 _ _ has had hbs hbd]
    exact broadcastLoop_device op a b _
      (Tensor.construct ((List.range (max a.shape_.length b.shape_.length)).map
        (fun i => max (alignedDim a.shape_ i) (alignedDim b.shape_ i))).reverse (0 : α)
        a.device_) a2.device_

theorem broadcastOp_device_inert [Zero α] (op : α → α → α) (a a2 b b2 : Tensor α)
    (has : a2.shape_ = a.shape_) (had : a2.data_ = a.data_)
    (hbs : b2.shape_ = b.shape_) (hbd : b2.data_ = b.data_) :
    (∀ e, Tensor.broadcastOp op a b = .error e ↔ Tensor.broadcastOp op a2 b2 = .error e)
      ∧ (∀ r, Tensor.broadcastOp op a b = .ok r →
          ∃ r2, Tensor.broadcastOp op a2 b2 = .ok r2 ∧ r2.shape_ = r.shape_
            ∧ r2.data_ = r.data_ ∧ r2.device_ = a2.device_ ∧ r.device_ = a.device_)
      ∧ (∀ r2, Tensor.broadcastOp op a2 b2 = .ok r2 →
          ∃ r, Tensor.broadcastOp op a b = .ok r ∧ r2.shape_ = r.shape_
            ∧ r2.data_ = r.data_) := by
  have h := broadcastOp_congr op a a2 b b2 has had hbs hbd
  refine ⟨?_, ?_, ?_⟩
  · intro e
    rw [h]
    cases Tensor.broadcastOp op a b with
    | error e' => simp
    | ok r => simp
  · intro r hr
    rw [h, hr]
    exact ⟨_, rfl, rfl, rfl, rfl, (broadcastOp_ok op a b r hr).2.2.2⟩
  · intro r2 hr2
    rw [h] at hr2
    cases hab : Tensor.broadcastOp op a b with
    | error e => rw [hab] at hr2; cases hr2
    | ok r =>
      rw [hab] at hr2
      injection hr2 with hr2
      subst hr2
      exact ⟨r, rfl, rfl, rfl⟩

/-- C15: if `a2` differs from `a`, and `b2` from `b`, at most in the device
tag, then `a + b` and `a2 + b2` fail with the same error or both succeed with
the same shape and the same buffer, and each result carries the device of its
left operand; likewise for `-`; the results of `*` and `/` carry the device of
their operand. -/
theorem device_tag_inert [Zero α] [Add α] [Sub α] [Mul α] [Div α] [DecidableEq α]
    (a a2 b b2 : Tensor α)
    (has : a2.shape_ = a.shape_) (had : a2.data_ = a.data_)
    (hbs : b2.shape_ = b.shape_) (hbd : b2.data_ = b.data_) :
    (∀ e, a.add b = .error e ↔ a2.add b2 = .error e)
      ∧ (∀ r, a.add b = .ok r →
          ∃ r2, a2.add b2 = .ok r2 ∧ r2.shape = r.shape ∧ r2.data_ = r.data_
            ∧ r2.device = a2.device ∧ r.device = a.device)
      ∧ (∀ e, a.sub b = .error e ↔ a2.sub b2 = .error e)
      ∧ (∀ r, a.sub b = .ok r →
          ∃ r2, a2.sub b2 = .ok r2 ∧ r2.shape = r.shape ∧ r2.data_ = r.data_
            ∧ r2.device = a2.device ∧ r.device = a.device)
      ∧ (∀ k r, a.mul k = .ok r → r.device = a.device)
      ∧ (∀ k r, a.div k = .ok r → r.device = a.device) := by
  obtain ⟨hadd1, hadd2, _⟩ :=
    broadcastOp_device_inert (fun x y : α => x + y) a a2 b b2 has had hbs hbd
  obtain ⟨hsub1, hsub2, _⟩ :=
    broadcastOp_device_inert (fun x y : α => x - y) a a2 b b2 has had hbs hbd
  refine ⟨hadd1, hadd2, hsub1, hsub2, ?_, ?_⟩
  · intro k r hr
    exact (scalarOp_ok _ a r hr).2.1
  · intro k r hr
    unfold Tensor.div at hr
    split at hr
    · cases hr
    · exact (scalarOp_ok _ a r hr).2.1

/-- Witness of C15 at the specification's instance: a GPU-tagged left operand
and a CPU-tagged right operand give a GPU-tagged result with the buffer of the
all-CPU sum. -/
theorem device_tag_inert_witness :
    (Tensor.construct [2, 3] (5 : Int) .CPU).add (Tensor.construct [1, 3] 2 .CPU)
        = .ok (Tensor.construct [2, 3] 7 .CPU)
      ∧ ∃ r2, (Tensor.construct [2, 3] (5 : Int) .GPU).add (Tensor.construct [1, 3] 2 .CPU)
            = .ok r2
          ∧ r2.shape = (Tensor.construct [2, 3] (7 : Int) .CPU).shape
          ∧ r2.data_ = (Tensor.construct [2, 3] (7 : Int) .CPU).data_
          ∧ r2.device = (Tensor.construct [2, 3] (5 : Int) .GPU).device
          ∧ (Tensor.construct [2, 3] (7 : Int) .CPU).device
              = (Tensor.construct [2, 3] (5 : Int) .CPU).device :=
  ⟨by decide,
    (device_tag_inert (Tensor.construct [2, 3] (5 : Int) .CPU)
      (Tensor.construct [2, 3] (5 : Int) .GPU) (Tensor.construct [1, 3] 2 .CPU)
      (Tensor.construct [1, 3] 2 .CPU) rfl rfl rfl rfl).2.1
      (Tensor.construct [2, 3] 7 .CPU) (by decide)⟩

/-! ## The flat index as a bijection -/

theorem prefixFlat_inj (s idx1 idx2 : List Nat) (n : Nat)
    (h1 : ∀ d, d < n → idx1.getD d 0 < s.getD d 0)
    (h2 : ∀ d, d < n → idx2.getD d 0 < s.getD d 0)
    (heq : prefixFlat s idx1 n = prefixFlat s idx2 n) :
    ∀ d, d < n → idx1.getD d 0 = idx2.getD d 0 := by
  induction n with
  | zero => intro d hd; omega
  | succ k ih =>
    have hk1 := h1 k (Nat.lt_succ_self k)
    have hk2 := h2 k (Nat.lt_succ_self k)
    simp only [prefixFlat] at heq
    have hmod : idx1.getD k 0 = idx2.getD k 0 := by
      have := congrArg (fun x => x % s.getD k 0) heq
      simp only [Nat.add_mul_mod_self_left] at this
      rwa [Nat.mod_eq_of_lt hk1, Nat.mod_eq_of_lt hk2] at this
    have hdiv : prefixFlat s idx1 k = prefixFlat s idx2 k := by
      have hpos : 0 < s.getD k 0 := by omega
      have := congrArg (fun x => x / s.getD k 0) heq
      simp only [Nat.add_mul_div_left _ _ hpos] at this
      rwa [Nat.div_eq_of_lt hk1, Nat.div_eq_of_lt hk2, Nat.zero_add, Nat.zero_add] at this
    intro d hd
    rcases Nat.lt_succ_iff_lt_or_eq.mp hd with h | h
    · exact ih (fun d hd => h1 d (by omega)) (fun d hd => h2 d (by omega)) hdiv d h
    · rw [h]; exact hmod

theorem rowMajorFlat_inj (s idx1 idx2 : List Nat) (h1 : ValidIndices s idx1)
    (h2 : ValidIndices s idx2) (heq : rowMajorFlat s idx1 = rowMajorFlat s idx2) :
    idx1 = idx2 := by
  rw [← prefixFlat_length_eq_rowMajorFlat, ← prefixFlat_length_eq_rowMajorFlat] at heq
  have h := prefixFlat_inj s idx1 idx2 s.length h1.2 h2.2 heq
  apply List.ext_getElem (by rw [h1.1, h2.1])
  intro d hd1 hd2
  have := h d (by rw [← h1.1]; exact hd1)
  rwa [List.getD_eq_getElem?_getD, List.getD_eq_getElem?_getD,
    List.getElem?_eq_getElem hd1, List.getElem?_eq_getElem hd2] at this

theorem pos_of_prod_pos (s : List Nat) (h : 0 < s.prod) : ∀ d ∈ s, 1 ≤ d := by
  intro d hd
  by_contra hc
  have hd0 : d = 0 := by omega
  rw [hd0] at hd
  rw [List.prod_eq_zero hd] at h
  exact absurd h (by decide)

theorem rowMajorFlat_surj (s : List Nat) (p : Nat) (hp : p < s.prod) :
    ValidIndices s (coordsOf s p) ∧ rowMajorFlat s (coordsOf s p) = p :=
  ⟨coordsOf_valid s (pos_of_prod_pos s (by omega)) p,
    by rw [rowMajorFlat_coordsOf, Nat.mod_eq_of_lt hp]⟩


/-- C20 (counterexample): under the shape [2^32 + 1, 2^32] the two different
index vectors [2^32, 5] and [0, 5] are both valid and `getFlatIndex` maps both
to position 5. -/
theorem getFlatIndex_collides_on_wrapped_shape :
    ValidIndices (Tensor.construct [4294967297, 4294967296] (0 : Int) .CPU).shape_
        [4294967296, 5]
      ∧ ValidIndices (Tensor.construct [4294967297, 4294967296] (0 : Int) .CPU).shape_
        [0, 5]
      ∧ (Tensor.construct [4294967297, 4294967296] (0 : Int) .CPU).getFlatIndex
          [4294967296, 5] = .ok 5
      ∧ (Tensor.construct [4294967297, 4294967296] (0 : Int) .CPU).getFlatIndex
          [0, 5] = .ok 5
      ∧ [4294967296, 5] ≠ [0, 5]
      ∧ sizeModulus < [4294967297, 4294967296].prod := by
  decide

/-- C20 (amended): for every shape, `getFlatIndex` accepts exactly the index
vectors valid for the shape and maps each of them to a storage position below
`product(shape)` (inside the buffer when the buffer holds `product(shape)`
elements); and for every shape whose product is at most 2^64 it is a bijection
between the valid index vectors and the positions below the product: two
different valid index vectors map to different positions, and every position
below the product is the image of a valid index vector. -/
theorem getFlatIndex_bijection (t : Tensor α) :
    (∀ idx, (∃ f, t.getFlatIndex idx = .ok f) ↔ ValidIndices t.shape_ idx)
      ∧ (∀ idx f, t.getFlatIndex idx = .ok f →
          f < t.shape_.prod ∧ (t.data_.length = t.shape_.prod → f < t.data_.length))
      ∧ (t.shape_.prod ≤ sizeModulus →
          ∀ idx1 idx2 f, t.getFlatIndex idx1 = .ok f → t.getFlatIndex idx2 = .ok f →
            idx1 = idx2)
      ∧ (t.shape_.prod ≤ sizeModulus →
          ∀ p, p < t.shape_.prod →
            ∃ idx, ValidIndices t.shape_ idx ∧ t.getFlatIndex idx = .ok p) := by
  refine ⟨getFlatIndex_ok_iff t, ?_, ?_, ?_⟩
  · intro idx f hf
    have hv := (getFlatIndex_ok_iff t idx).mp ⟨f, hf⟩
    rw [getFlatIndex_of_valid t idx hv] at hf
    injection hf with hf
    have hlt : f < t.shape_.prod := by
      rw [← hf]
      exact lt_of_le_of_lt (Nat.mod_le _ _) (rowMajorFlat_lt t.shape_ idx hv)
    exact ⟨hlt, fun hwf => by rw [hwf]; exact hlt⟩
  · intro hfit idx1 idx2 f hf1 hf2
    have hv1 := (getFlatIndex_ok_iff t idx1).mp ⟨f, hf1⟩
    have hv2 := (getFlatIndex_ok_iff t idx2).mp ⟨f, hf2⟩
    rw [getFlatIndex_of_valid_of_le t idx1 hv1 hfit] at hf1
    rw [getFlatIndex_of_valid_of_le t idx2 hv2 hfit] at hf2
    injection hf1 with hf1
    injection hf2 with hf2
    exact rowMajorFlat_inj t.shape_ idx1 idx2 hv1 hv2 (by rw [hf1, hf2])
  · intro hfit p hp
    obtain ⟨hv, hf⟩ := rowMajorFlat_surj t.shape_ p hp
    exact ⟨coordsOf t.shape_ p, hv, by rw [getFlatIndex_of_valid_of_le t _ hv hfit, hf]⟩

/-- Witness of C20 (amended) on a 2x3 tensor: [1,2] maps to position 5, and
position 4 is the image of a valid index vector. -/
theorem getFlatIndex_bijection_witness :
    iota23.shape_.prod ≤ sizeModulus
      ∧ (5 < iota23.shape_.prod
          ∧ (iota23.data_.length = iota23.shape_.prod → 5 < iota23.data_.length))
      ∧ (∃ idx, ValidIndices iota23.shape_ idx ∧ iota23.getFlatIndex idx = .ok 4) :=
  ⟨by decide, (getFlatIndex_bijection iota23).2.1 [1, 2] 5 (by decide),
    (getFlatIndex_bijection iota23).2.2.2 (by decide) 4 (by decide)⟩

/-! ## Frame of a write through the accessor -/

/-- For a tensor whose buffer holds `product(shape)` elements, a write at a
valid index vector returns normally, leaves shape, device and buffer length as
they were, and leaves the value read at every other valid index vector
unchanged. -/
theorem writeAt_frame_of_size_eq (t : Tensor α) (idx : List Nat) (w : α)
    (hv : ValidIndices t.shape_ idx) (hwf : t.data_.length = t.shape_.prod) :
    (t.writeAt idx w).1 = .ok ()
      ∧ (t.writeAt idx w).2.shape = t.shape
      ∧ (t.writeAt idx w).2.device = t.device
      ∧ (t.writeAt idx w).2.size = t.size
      ∧ (∀ idx2, ValidIndices t.shape_ idx2 → idx2 ≠ idx →
          (t.writeAt idx w).2.readAt idx2 = t.readAt idx2) := by
  have hfit := le_of_lt (shape_prod_lt_of_size_eq t hwf)
  obtain ⟨hs, hd, hl⟩ := writeAt_shape t idx w
  refine ⟨by rw [writeAt_of_valid t idx w hv hwf], hs, hd, hl, ?_⟩
  intro idx2 hv2 hne
  rw [writeAt_of_valid t idx w hv hwf]
  have hflat : rowMajorFlat t.shape_ idx ≠ rowMajorFlat t.shape_ idx2 := by
    intro heq
    exact hne (rowMajorFlat_inj t.shape_ idx2 idx hv2 hv heq.symm)
  unfold Tensor.readAt
  dsimp only
  rw [getFlatIndex_of_valid_of_le _ idx2 (by simpa [Tensor.setData] using hv2)
    (by simpa [Tensor.setData] using hfit), getFlatIndex_of_valid_of_le t idx2 hv2 hfit]
  simp only [Tensor.setData]
  rw [List.getElem?_set_ne hflat]

/-- C16 (the code at the failing input): on the default-constructed tensor the
empty index vector is valid and `getFlatIndex` returns 0, but the buffer has
no slot 0, so the write through `operator()` does not address a slot of the
buffer at all. -/
theorem writeAt_default_constructed_addresses_no_slot :
    ValidIndices (Tensor.mkDefault .CPU : Tensor Int).shape_ []
      ∧ (Tensor.mkDefault .CPU : Tensor Int).getFlatIndex [] = .ok 0
      ∧ ¬ (0 < (Tensor.mkDefault .CPU : Tensor Int).data_.length)
      ∧ ((Tensor.mkDefault .CPU : Tensor Int).writeAt [] 7).1
          = .error .bufferAccessOutOfBounds
      ∧ ((Tensor.mkDefault .CPU : Tensor Int).writeAt [] 7).1 ≠ .ok () := by
  decide

/-! ## What the broadcast lookup computes -/

theorem getElem?_mod_some (l : List α) (i : Nat) (h : 0 < l.length) :
    ∃ x, l[i % l.length]? = some x :=
  ⟨l.get ⟨i % l.length, Nat.mod_lt _ h⟩, List.getElem?_eq_getElem (Nat.mod_lt _ h)⟩


theorem broadcastOp_mod_lookup [Zero α] (op : α → α → α) (a b : Tensor α)
    (hc : BroadcastCompatible a.shape_ b.shape_)
    (hwfa : a.data_.length = a.shape_.prod) (hwfb : b.data_.length = b.shape_.prod)
    (hposa : ∀ d ∈ a.shape_, 1 ≤ d) (hposb : ∀ d ∈ b.shape_, 1 ≤ d)
    (hrank : b.shape_.length ≤ a.shape_.length) :
    ∃ r, Tensor.broadcastOp op a b = .ok r ∧ r.shape = a.broadcastedShape b
      ∧ r.size = calcSize (a.broadcastedShape b)
      ∧ ∀ i, i < r.size →
          ∃ x y, a.data_[i % a.size]? = some x ∧ b.data_[i % b.size]? = some y
            ∧ r.data_[i]? = some (op x y) := by
  have hla : 0 < a.data_.length := by rw [hwfa]; exact List.prod_pos hposa
  have hlb : 0 < b.data_.length := by rw [hwfb]; exact List.prod_pos hposb
  obtain ⟨r, hr, hs, _, hdata⟩ := broadcastOp_of_rank_le op a b hc hposa hposb hwfa hwfb hrank
  have hsz : r.size = calcSize (a.broadcastedShape b) := by
    rw [Tensor.size, hdata]; simp
  refine ⟨r, hr, hs, hsz, ?_⟩
  intro i hi
  rw [hsz] at hi
  obtain ⟨x, hx⟩ := getElem?_mod_some a.data_ i hla
  obtain ⟨y, hy⟩ := getElem?_mod_some b.data_ i hlb
  refine ⟨x, y, hx, hy, ?_⟩
  rw [hdata, List.getElem?_map, List.getElem?_range hi]
  simp only [Option.map_some', hx, hy, Option.getD_some]

/-- C17: for broadcast-compatible tensors that hold `product(shape)` elements,
have no dimension below 1 and satisfy `rank a >= rank b`, `a + b` and `a - b`
return a result whose element at every storage position `i` below its size is
`a.data[i mod a.size()] + b.data[i mod b.size()]`, respectively the
difference; for each operand the first loop of the lookup yields the
coordinates of `i` under the operand's own shape, the zeroing loop returns
them unchanged, and the lookup returns the operand's element at
`i mod size()`. -/
theorem add_sub_mod_lookup [Zero α] [Add α] [Sub α] (a b : Tensor α)
    (hc : BroadcastCompatible a.shape_ b.shape_)
    (hwfa : a.data_.length = a.shape_.prod) (hwfb : b.data_.length = b.shape_.prod)
    (hposa : ∀ d ∈ a.shape_, 1 ≤ d) (hposb : ∀ d ∈ b.shape_, 1 ≤ d)
    (hrank : b.shape_.length ≤ a.shape_.length) :
    (∃ r, a.add b = .ok r ∧ r.shape = a.broadcastedShape b
        ∧ ∀ i, i < r.size →
            ∃ x y, a.data_[i % a.size]? = some x ∧ b.data_[i % b.size]? = some y
              ∧ r.data_[i]? = some (x + y))
      ∧ (∃ r, a.sub b = .ok r ∧ r.shape = a.broadcastedShape b
        ∧ ∀ i, i < r.size →
            ∃ x y, a.data_[i % a.size]? = some x ∧ b.data_[i % b.size]? = some y
              ∧ r.data_[i]? = some (x - y))
      ∧ (∀ i, decomposeLoop i a.shape_ a.shape_.length [] 1
            = .ok (coordsOf a.shape_ i).reverse
          ∧ remapLoop a.shape_ a.shape_ (coordsOf a.shape_ i).length (coordsOf a.shape_ i)
            = .ok (coordsOf a.shape_ i)
          ∧ ∃ x, a.data_[i % a.size]? = some x ∧ a.dataAtBroadcasted i a = .ok x)
      ∧ (∀ i, decomposeLoop i b.shape_ b.shape_.length [] 1
            = .ok (coordsOf b.shape_ i).reverse
          ∧ remapLoop a.shape_ b.shape_ (coordsOf b.shape_ i).length (coordsOf b.shape_ i)
            = .ok (coordsOf b.shape_ i)
          ∧ ∃ y, b.data_[i % b.size]? = some y ∧ a.dataAtBroadcasted i b = .ok y) := by
  have hlook : ∀ (src : Tensor α), (∀ d ∈ src.shape_, 1 ≤ d) →
      src.data_.length = src.shape_.prod →
      src.shape_.length ≤ a.shape_.length → ∀ i,
      decomposeLoop i src.shape_ src.shape_.length [] 1 = .ok (coordsOf src.shape_ i).reverse
        ∧ remapLoop a.shape_ src.shape_ (coordsOf src.shape_ i).length (coordsOf src.shape_ i)
            = .ok (coordsOf src.shape_ i) := by
    intro src hpos hwf hr i
    have hdec := decomposeLoop_ok i src.shape_ hpos (shape_prod_lt_of_size_eq src hwf)
      src.shape_.length le_rfl []
    rw [List.drop_length, List.prod_nil, List.nil_append,
      List.take_of_length_le (by rw [coordsOf_length])] at hdec
    exact ⟨hdec, remapLoop_ok a.shape_ src.shape_ (coordsOf src.shape_ i)
      (coordsOf src.shape_ i).length (by rw [coordsOf_length]; exact hr)
      (fun k hk h1 => coordsOf_set_zero src.shape_ i k (by rwa [coordsOf_length] at hk) h1)⟩
  obtain ⟨r1, h1, hs1, _, he1⟩ := broadcastOp_mod_lookup (fun x y : α => x + y) a b hc hwfa
    hwfb hposa hposb hrank
  obtain ⟨r2, h2, hs2, _, he2⟩ := broadcastOp_mod_lookup (fun x y : α => x - y) a b hc hwfa
    hwfb hposa hposb hrank
  refine ⟨⟨r1, h1, hs1, he1⟩, ⟨r2, h2, hs2, he2⟩, ?_, ?_⟩
  · intro i
    exact ⟨(hlook a hposa hwfa le_rfl i).1, (hlook a hposa hwfa le_rfl i).2,
      dataAtBroadcasted_eq a a i hposa hwfa le_rfl⟩
  · intro i
    exact ⟨(hlook b hposb hwfb hrank i).1, (hlook b hposb hwfb hrank i).2,
      dataAtBroadcasted_eq a b i hposb hwfb hrank⟩

/-- Witness of C17 at the shapes [2,3] and [2,1]: position 1 of the sum holds
`a.data[1] + b.data[1 mod 2]`. -/
theorem add_sub_mod_lookup_witness :
    BroadcastCompatible trailingLhs.shape_ trailingRhs.shape_
      ∧ trailingLhs.data_.length = trailingLhs.shape_.prod
      ∧ trailingRhs.data_.length = trailingRhs.shape_.prod
      ∧ (∃ r, trailingLhs.add trailingRhs = .ok r
          ∧ r.shape = trailingLhs.broadcastedShape trailingRhs
          ∧ ∀ i, i < r.size →
              ∃ x y, trailingLhs.data_[i % trailingLhs.size]? = some x
                ∧ trailingRhs.data_[i % trailingRhs.size]? = some y
                ∧ r.data_[i]? = some (x + y))
      ∧ trailingLhs.add trailingRhs
          = .ok { shape_ := [2, 3], data_ := [10, 20, 10, 20, 10, 20], device_ := .CPU } :=
  ⟨by decide, by decide, by decide,
    (add_sub_mod_lookup trailingLhs trailingRhs (by decide) (by decide) (by decide)
      (by decide) (by decide) (by decide)).1,
    by decide⟩


/-! ## Operands of identical shape -/

theorem padShape_self (s : List Nat) : padShape (max s.length s.length) s = s := by
  simp [padShape]

theorem broadcastCompatible_self (s : List Nat) : BroadcastCompatible s s := by
  intro p _
  exact Or.inl rfl

theorem broadcastShape_self (s : List Nat) : broadcastShape s s = s := by
  unfold broadcastShape
  rw [padShape_self]
  induction s with
  | nil => rfl
  | cons d ds ih => simp [List.zipWith, ih]


theorem broadcastOp_same_shape [Zero α] (op : α → α → α) (a b : Tensor α)
    (hs : a.shape_ = b.shape_)
    (hwfa : a.data_.length = a.shape_.prod) (hwfb : b.data_.length = b.shape_.prod) :
    ∃ r, Tensor.broadcastOp op a b = .ok r ∧ r.shape = a.shape_
      ∧ r.size = a.shape_.prod
      ∧ ∀ i, i < a.shape_.prod →
          ∃ x y, a.data_[i]? = some x ∧ b.data_[i]? = some y
            ∧ r.data_[i]? = some (op x y) := by
  have hc : BroadcastCompatible a.shape_ b.shape_ := by
    rw [← hs]; exact broadcastCompatible_self _
  have hbs : a.broadcastedShape b = a.shape_ := by
    rw [broadcastedShape_eq_broadcastShape, ← hs, broadcastShape_self]
  have hcs : calcSize a.shape_ = a.shape_.prod :=
    calcSize_of_lt _ (shape_prod_lt_of_size_eq a hwfa)
  by_cases hp : 0 < a.shape_.prod
  · have hposa := pos_of_prod_pos a.shape_ hp
    have hposb : ∀ d ∈ b.shape_, 1 ≤ d := by rw [← hs]; exact hposa
    obtain ⟨r, hr, hrs, hrn, hre⟩ := broadcastOp_mod_lookup op a b hc hwfa hwfb hposa hposb
      (by rw [hs])
    rw [hbs, hcs] at hrn
    refine ⟨r, hr, by rw [hrs, hbs], hrn, ?_⟩
    intro i hi
    obtain ⟨x, y, hx, hy, hxy⟩ := hre i (by rw [hrn]; exact hi)
    rw [Tensor.size, Nat.mod_eq_of_lt (by rw [hwfa]; exact hi)] at hx
    rw [Tensor.size, Nat.mod_eq_of_lt (by rw [hwfb, ← hs]; exact hi)] at hy
    exact ⟨x, y, hx, hy, hxy⟩
  · have hz : a.shape_.prod = 0 := by omega
    refine ⟨_, broadcastOp_of_size_zero op a b hc (by rw [hbs, hcs, hz]), hbs, ?_, ?_⟩
    · simp [Tensor.size, Tensor.construct, hbs, hcs, hz]
    · intro i hi
      omega

/-- C18: for tensors of identical shape `s` that hold `product(s)` elements,
whatever the rank and the dimensions (0 included), `a + b` and `a - b`
succeed, have shape `s`, and hold `a.data[i] + b.data[i]`, respectively
`a.data[i] - b.data[i]`, at every storage position `i < product(s)`;
decomposing a linear index below `product(s)` into coordinates under `s` and
flattening them again under `s` gives the index back. -/
theorem add_sub_same_shape [Zero α] [Add α] [Sub α] (a b : Tensor α)
    (hs : a.shape_ = b.shape_)
    (hwfa : a.data_.length = a.shape_.prod) (hwfb : b.data_.length = b.shape_.prod) :
    (∃ r, a.add b = .ok r ∧ r.shape = a.shape_ ∧ r.size = a.shape_.prod
        ∧ ∀ i, i < a.shape_.prod →
            ∃ x y, a.data_[i]? = some x ∧ b.data_[i]? = some y
              ∧ r.data_[i]? = some (x + y))
      ∧ (∃ r, a.sub b = .ok r ∧ r.shape = a.shape_ ∧ r.size = a.shape_.prod
        ∧ ∀ i, i < a.shape_.prod →
            ∃ x y, a.data_[i]? = some x ∧ b.data_[i]? = some y
              ∧ r.data_[i]? = some (x - y))
      ∧ (∀ i, i < a.shape_.prod →
          ValidIndices a.shape_ (coordsOf a.shape_ i)
            ∧ a.getFlatIndex (coordsOf a.shape_ i) = .ok i) := by
  refine ⟨broadcastOp_same_shape _ a b hs hwfa hwfb,
    broadcastOp_same_shape _ a b hs hwfa hwfb, ?_⟩
  intro i hi
  obtain ⟨hv, hf⟩ := rowMajorFlat_surj a.shape_ i hi
  exact ⟨hv, by rw [getFlatIndex_of_valid_of_le a _ hv
    (le_of_lt (shape_prod_lt_of_size_eq a hwfa)), hf]⟩

/-- Witness of C18 at the shape [2,3] and at the shape [2,0]. -/
theorem add_sub_same_shape_witness :
    iota23.shape_ = iota23.shape_
      ∧ iota23.data_.length = iota23.shape_.prod
      ∧ (∃ r, iota23.add iota23 = .ok r ∧ r.shape = iota23.shape_
          ∧ r.size = iota23.shape_.prod
          ∧ ∀ i, i < iota23.shape_.prod →
              ∃ x y, iota23.data_[i]? = some x ∧ iota23.data_[i]? = some y
                ∧ r.data_[i]? = some (x + y))
      ∧ iota23.add iota23
          = .ok { shape_ := [2, 3], data_ := [0, 2, 4, 6, 8, 10], device_ := .CPU }
      ∧ (Tensor.construct [2, 0] (1 : Int) .CPU).sub (Tensor.construct [2, 0] 1 .CPU)
          = .ok (Tensor.construct [2, 0] 0 .CPU) :=
  ⟨rfl, by decide,
    (add_sub_same_shape iota23 iota23 rfl (by decide) (by decide)).1,
    by decide, by decide⟩

/-- C19 (the code at the failing inputs): both pairs of operands are
broadcast-compatible and hold `product(shape)` elements, yet neither `a + b`
nor `a - b` returns a result.  For the shapes [3] and [2,3] the lookup of the
second operand reads `shape_[1]` of the rank-1 left operand, an entry that
does not exist; for the shapes [0] and [1] the result shape is [1], and the
lookup of the first operand at output index 0 evaluates `% 0`. -/
theorem add_sub_lookup_faults :
    BroadcastCompatible [3] [2, 3]
      ∧ (Tensor.construct [3] (1 : Int) .CPU).data_.length = [3].prod
      ∧ (Tensor.construct [2, 3] (1 : Int) .CPU).data_.length = [2, 3].prod
      ∧ (Tensor.construct [3] (1 : Int) .CPU).add (Tensor.construct [2, 3] 1 .CPU)
          = .error .shapeReadOutOfBounds
      ∧ (Tensor.construct [3] (1 : Int) .CPU).sub (Tensor.construct [2, 3] 1 .CPU)
          = .error .shapeReadOutOfBounds
      ∧ BroadcastCompatible [0] [1]
      ∧ (Tensor.construct [0] (1 : Int) .CPU).data_.length = [0].prod
      ∧ (Tensor.construct [1] (1 : Int) .CPU).data_.length = [1].prod
      ∧ (Tensor.construct [0] (1 : Int) .CPU).broadcastedShape
          (Tensor.construct [1] (1 : Int) .CPU) = [1]
      ∧ (Tensor.construct [0] (1 : Int) .CPU).add (Tensor.construct [1] 1 .CPU)
          = .error .moduloByZero
      ∧ (Tensor.construct [0] (1 : Int) .CPU).sub (Tensor.construct [1] 1 .CPU)
          = .error .moduloByZero := by
  decide

end Theorems

end Ameli
